import Mathlib

/-!
Shallow embedding of the whirlpools off-chain quoting and routing core.

Sources embedded:
- `src/sdk/src/quotes/public/increase-liquidity-quote.ts` (liquidity quotes)
- `src/unnamed/part_000` (the split router: `findBestRoutes` and helpers)

Machine integers: the TypeScript code uses `BN`/`u64` arbitrary-precision
integers throughout (multiplication never overflows; division floors), so
token amounts, liquidity and sqrt prices are embedded as `Nat`, tick indices
as `Int`.  A thrown JS exception is embedded as `Option`/`Except` failure.

Functions of this repository that are not under `src/` (the math helpers in
`position-util.ts`, `PriceMath`, `TickUtil`, `swap-quote.ts`,
`rank-route-sets.ts`, the account fetcher) are either taken as parameters of
the embedding (an environment record, so theorems quantify over them) or are
modelled from the spec; each such definition carries a doc comment starting
with `Modelled from the spec:`.
-/

/-- A rational percentage `num / den`, mirroring `Percentage` from
`@orca-so/common-sdk` (a numerator/denominator pair of integers). -/
structure Percentage where
  num : Nat
  den : Nat
deriving DecidableEq, Repr

/-- `Percentage.fromFraction(num, den)` from the common SDK: builds the
fraction as given. -/
def Percentage.fromFraction (n d : Nat) : Percentage := ⟨n, d⟩

/-! ## Liquidity quotes (`increase-liquidity-quote.ts`) -/

/-- `IncreaseLiquidityQuoteParam` (mints as base58 strings,
`inputTokenAmount`/`sqrtPrice` as `Nat`, ticks as `Int`). -/
structure IncreaseLiquidityQuoteParam where
  inputTokenAmount : Nat
  inputTokenMint : String
  tokenMintA : String
  tokenMintB : String
  tickCurrentIndex : Int
  sqrtPrice : Nat
  tickLowerIndex : Int
  tickUpperIndex : Int
  slippage : Percentage
deriving DecidableEq, Repr

/-- `IncreaseLiquidityQuote`: the result record
`{ tokenMaxA, tokenMaxB, liquidityAmount, tokenEstA, tokenEstB }`. -/
structure IncreaseLiquidityQuote where
  tokenMaxA : Nat
  tokenMaxB : Nat
  liquidityAmount : Nat
  tokenEstA : Nat
  tokenEstB : Nat
deriving DecidableEq, Repr

/-- `IncreaseLiquidityQuoteByLiquidityParam`. -/
structure IncreaseLiquidityQuoteByLiquidityParam where
  liquidity : Nat
  tickCurrentIndex : Int
  sqrtPrice : Nat
  tickLowerIndex : Int
  tickUpperIndex : Int
  slippage : Percentage
deriving DecidableEq, Repr

/-- Environment of external math helpers consumed by
`increase-liquidity-quote.ts` but defined in files not under `src/`
(`position-util.ts`, `PriceMath`).  The quote functions are embedded as
functions of this record, so theorems about them quantify over the helpers.
`getLiquidityFromTokenA/B` are `Option`-valued because the BN arithmetic in
them can throw (division by a zero denominator). -/
structure LiqEnv where
  tickIndexToSqrtPriceX64 : Int → Nat
  getTokenAFromLiquidity : Nat → Nat → Nat → Bool → Nat
  getTokenBFromLiquidity : Nat → Nat → Nat → Bool → Nat
  getLiquidityFromTokenA : Nat → Nat → Nat → Bool → Option Nat
  getLiquidityFromTokenB : Nat → Nat → Nat → Bool → Option Nat
  getSlippageBoundForSqrtPrice : Nat → Percentage → (Nat × Int) × (Nat × Int)
  adjustForSlippage : Nat → Percentage → Bool → Nat

/-- Modelled from the spec: `TickUtil.checkTickInBounds` is not under `src/`.
§3: tick indices are valid in `[MIN_TICK, MAX_TICK]`, symmetric, e.g.
±443636. -/
def checkTickInBounds (t : Int) : Bool :=
  -443636 ≤ t && t ≤ 443636

/-- `getLiquidityFromInputToken` (src lines 132–155).  Note the strict
comparison `tickCurrentIndex > tickUpperIndex` guarding the above-range
branch: at `tickCurrentIndex == tickUpperIndex` the function falls through to
the in-range formulas. -/
def getLiquidityFromInputToken (env : LiqEnv) (params : IncreaseLiquidityQuoteParam) :
    Option Nat :=
  if params.inputTokenAmount = 0 then
    some 0
  else
    let isTokenA := params.tokenMintA = params.inputTokenMint
    let sqrtPriceLowerX64 := env.tickIndexToSqrtPriceX64 params.tickLowerIndex
    let sqrtPriceUpperX64 := env.tickIndexToSqrtPriceX64 params.tickUpperIndex
    if params.tickCurrentIndex < params.tickLowerIndex then
      if isTokenA then
        env.getLiquidityFromTokenA params.inputTokenAmount sqrtPriceLowerX64 sqrtPriceUpperX64 false
      else some 0
    else if params.tickCurrentIndex > params.tickUpperIndex then
      if isTokenA then some 0
      else
        env.getLiquidityFromTokenB params.inputTokenAmount sqrtPriceLowerX64 sqrtPriceUpperX64 false
    else
      if isTokenA then
        env.getLiquidityFromTokenA params.inputTokenAmount params.sqrtPrice sqrtPriceUpperX64 false
      else
        env.getLiquidityFromTokenB params.inputTokenAmount sqrtPriceLowerX64 params.sqrtPrice false

/-- The all-zero quote returned for zero liquidity. -/
def zeroLiquidityQuote : IncreaseLiquidityQuote :=
  { tokenMaxA := 0, tokenMaxB := 0, liquidityAmount := 0, tokenEstA := 0, tokenEstB := 0 }

/-- `getTokenEstimatesFromLiquidity` (src lines 220–247).  Returns `none` for
zero liquidity (the code throws `liquidity must be greater than 0`).  Note
the boundary convention here: the final `else` branch (token B over the full
range) is taken exactly when `tickCurrentIndex ≥ tickUpperIndex`. -/
def getTokenEstimatesFromLiquidity (env : LiqEnv)
    (params : IncreaseLiquidityQuoteByLiquidityParam) : Option (Nat × Nat) :=
  if params.liquidity = 0 then
    none
  else
    let lowerSqrtPrice := env.tickIndexToSqrtPriceX64 params.tickLowerIndex
    let upperSqrtPrice := env.tickIndexToSqrtPriceX64 params.tickUpperIndex
    if params.tickCurrentIndex < params.tickLowerIndex then
      some (env.getTokenAFromLiquidity params.liquidity params.sqrtPrice upperSqrtPrice true, 0)
    else if params.tickCurrentIndex < params.tickUpperIndex then
      some (env.getTokenAFromLiquidity params.liquidity params.sqrtPrice upperSqrtPrice true,
            env.getTokenBFromLiquidity params.liquidity lowerSqrtPrice params.sqrtPrice true)
    else
      some (0, env.getTokenBFromLiquidity params.liquidity lowerSqrtPrice upperSqrtPrice true)

/-- `increaseLiquidityQuoteByLiquidityWithParams` (src lines 179–218). -/
def increaseLiquidityQuoteByLiquidityWithParams (env : LiqEnv)
    (params : IncreaseLiquidityQuoteByLiquidityParam) : Option IncreaseLiquidityQuote :=
  if params.liquidity = 0 then
    some zeroLiquidityQuote
  else
    match getTokenEstimatesFromLiquidity env params with
    | none => none
    | some (tokenEstA, tokenEstB) =>
      let bounds := env.getSlippageBoundForSqrtPrice params.sqrtPrice params.slippage
      let sLower := bounds.1
      let sUpper := bounds.2
      match getTokenEstimatesFromLiquidity env
              { params with sqrtPrice := sLower.1, tickCurrentIndex := sLower.2 },
            getTokenEstimatesFromLiquidity env
              { params with sqrtPrice := sUpper.1, tickCurrentIndex := sUpper.2 } with
      | some (tokenEstALower, tokenEstBLower), some (tokenEstAUpper, tokenEstBUpper) =>
        some { tokenMaxA := max (max tokenEstA tokenEstALower) tokenEstAUpper
               tokenMaxB := max (max tokenEstB tokenEstBLower) tokenEstBUpper
               tokenEstA := tokenEstA
               tokenEstB := tokenEstB
               liquidityAmount := params.liquidity }
      | _, _ => none

/-- `increaseLiquidityQuoteByInputTokenWithParams_PriceSlippage`
(src lines 100–130).  `none` models a thrown invariant violation. -/
def increaseLiquidityQuoteByInputTokenWithParams_PriceSlippage (env : LiqEnv)
    (param : IncreaseLiquidityQuoteParam) : Option IncreaseLiquidityQuote :=
  if ¬ checkTickInBounds param.tickLowerIndex then none
  else if ¬ checkTickInBounds param.tickUpperIndex then none
  else if ¬ (param.inputTokenMint = param.tokenMintA ∨ param.inputTokenMint = param.tokenMintB)
    then none
  else
    match getLiquidityFromInputToken env param with
    | none => none
    | some liquidity =>
      if liquidity = 0 then
        some zeroLiquidityQuote
      else
        increaseLiquidityQuoteByLiquidityWithParams env
          { liquidity := liquidity
            tickCurrentIndex := param.tickCurrentIndex
            sqrtPrice := param.sqrtPrice
            tickLowerIndex := param.tickLowerIndex
            tickUpperIndex := param.tickUpperIndex
            slippage := param.slippage }

/-! ### Legacy (deprecated) quote path -/

/-- Position classification. -/
inductive PositionStatus where
  | BelowRange
  | InRange
  | AboveRange
deriving DecidableEq, Repr

/-- Modelled from the spec: `PositionUtil.getStrictPositionStatus`
(`position-util.ts` is not under `src/`).  §4.B classifies by the current
sqrt price against the range bounds: below when at or under the lower bound,
above when at or over the upper bound, otherwise in range. -/
def getStrictPositionStatus (env : LiqEnv) (sqrtPriceX64 : Nat)
    (tickLowerIndex tickUpperIndex : Int) : PositionStatus :=
  let lower := env.tickIndexToSqrtPriceX64 tickLowerIndex
  let upper := env.tickIndexToSqrtPriceX64 tickUpperIndex
  if sqrtPriceX64 ≤ lower then .BelowRange
  else if sqrtPriceX64 ≥ upper then .AboveRange
  else .InRange

/-- `getQuotePositionBelowRange` (src lines 372–405). -/
def getQuotePositionBelowRange (env : LiqEnv) (param : IncreaseLiquidityQuoteParam) :
    Option (Nat × Nat × Nat) :=
  if ¬ (param.tokenMintA = param.inputTokenMint) then
    some (0, 0, 0)
  else
    let sqrtPriceLowerX64 := env.tickIndexToSqrtPriceX64 param.tickLowerIndex
    let sqrtPriceUpperX64 := env.tickIndexToSqrtPriceX64 param.tickUpperIndex
    match env.getLiquidityFromTokenA param.inputTokenAmount sqrtPriceLowerX64 sqrtPriceUpperX64
        false with
    | none => none
    | some liquidityAmount =>
      some (env.getTokenAFromLiquidity liquidityAmount sqrtPriceLowerX64 sqrtPriceUpperX64 true,
            0, liquidityAmount)

/-- `getQuotePositionAboveRange` (src lines 407–439). -/
def getQuotePositionAboveRange (env : LiqEnv) (param : IncreaseLiquidityQuoteParam) :
    Option (Nat × Nat × Nat) :=
  if ¬ (param.tokenMintB = param.inputTokenMint) then
    some (0, 0, 0)
  else
    let sqrtPriceLowerX64 := env.tickIndexToSqrtPriceX64 param.tickLowerIndex
    let sqrtPriceUpperX64 := env.tickIndexToSqrtPriceX64 param.tickUpperIndex
    match env.getLiquidityFromTokenB param.inputTokenAmount sqrtPriceLowerX64 sqrtPriceUpperX64
        false with
    | none => none
    | some liquidityAmount =>
      some (0, env.getTokenBFromLiquidity liquidityAmount sqrtPriceLowerX64 sqrtPriceUpperX64 true,
            liquidityAmount)

/-- `getQuotePositionInRange` (src lines 441–478).  The branch on the JS
truthiness of `tokenEstA` is equivalently a branch on whether the input mint
is token A (a BN is always truthy). -/
def getQuotePositionInRange (env : LiqEnv) (param : IncreaseLiquidityQuoteParam) :
    Option (Nat × Nat × Nat) :=
  let sqrtPriceX64 := param.sqrtPrice
  let sqrtPriceLowerX64 := env.tickIndexToSqrtPriceX64 param.tickLowerIndex
  let sqrtPriceUpperX64 := env.tickIndexToSqrtPriceX64 param.tickUpperIndex
  if param.tokenMintA = param.inputTokenMint then
    match env.getLiquidityFromTokenA param.inputTokenAmount sqrtPriceX64 sqrtPriceUpperX64
        false with
    | none => none
    | some liquidityAmount =>
      some (env.getTokenAFromLiquidity liquidityAmount sqrtPriceX64 sqrtPriceUpperX64 true,
            env.getTokenBFromLiquidity liquidityAmount sqrtPriceLowerX64 sqrtPriceX64 true,
            liquidityAmount)
  else
    match env.getLiquidityFromTokenB param.inputTokenAmount sqrtPriceLowerX64 sqrtPriceX64
        false with
    | none => none
    | some liquidityAmount =>
      some (env.getTokenAFromLiquidity liquidityAmount sqrtPriceX64 sqrtPriceUpperX64 true,
            env.getTokenBFromLiquidity liquidityAmount sqrtPriceLowerX64 sqrtPriceX64 true,
            liquidityAmount)

/-- `increaseLiquidityQuoteByInputTokenWithParams` — the legacy, deprecated
path (src lines 297–323), dispatching on the strict position status.  The
estimate triples `(tokenEstA, tokenEstB, liquidityAmount)` are wrapped with
token-percentage slippage by `quotePosition{Below,In,Above}Range`
(src lines 328–370). -/
def increaseLiquidityQuoteByInputTokenWithParams (env : LiqEnv)
    (param : IncreaseLiquidityQuoteParam) : Option IncreaseLiquidityQuote :=
  if ¬ checkTickInBounds param.tickLowerIndex then none
  else if ¬ checkTickInBounds param.tickUpperIndex then none
  else if ¬ (param.inputTokenMint = param.tokenMintA ∨ param.inputTokenMint = param.tokenMintB)
    then none
  else
    match getStrictPositionStatus env param.sqrtPrice param.tickLowerIndex param.tickUpperIndex
        with
    | .BelowRange =>
      match getQuotePositionBelowRange env param with
      | none => none
      | some (tokenEstA, tokenEstB, liquidityAmount) =>
        some { tokenMaxA := env.adjustForSlippage tokenEstA param.slippage true
               tokenMaxB := 0
               tokenEstA := tokenEstA, tokenEstB := tokenEstB
               liquidityAmount := liquidityAmount }
    | .InRange =>
      match getQuotePositionInRange env param with
      | none => none
      | some (tokenEstA, tokenEstB, liquidityAmount) =>
        some { tokenMaxA := env.adjustForSlippage tokenEstA param.slippage true
               tokenMaxB := env.adjustForSlippage tokenEstB param.slippage true
               tokenEstA := tokenEstA, tokenEstB := tokenEstB
               liquidityAmount := liquidityAmount }
    | .AboveRange =>
      match getQuotePositionAboveRange env param with
      | none => none
      | some (tokenEstA, tokenEstB, liquidityAmount) =>
        some { tokenMaxA := 0
               tokenMaxB := env.adjustForSlippage tokenEstB param.slippage true
               tokenEstA := tokenEstA, tokenEstB := tokenEstB
               liquidityAmount := liquidityAmount }

/-! ### Concrete helper instances, for evaluating the embedding

These instantiate the `LiqEnv` fields with the formulas the spec gives for
the missing files; they are used to run the quote functions on concrete
inputs (counterexamples and witnesses). -/

/-- Modelled from the spec: `getLiquidityFromTokenA` (`position-util.ts` is
not under `src/`).  §4.B: inverse of the token-A amount-delta formula, i.e.
`L = amount·√P_lo·√P_hi / ((√P_hi − √P_lo)·2^64)` (floor; round up on the
final 64-bit shift when `roundUp`).  `none` when `√P_hi ≤ √P_lo`: the BN
division by the non-positive denominator throws. -/
def getLiquidityFromTokenA_spec (amount sqrtPriceLowerX64 sqrtPriceUpperX64 : Nat)
    (roundUp : Bool) : Option Nat :=
  if sqrtPriceUpperX64 ≤ sqrtPriceLowerX64 then none
  else
    let quotient := amount * sqrtPriceLowerX64 * sqrtPriceUpperX64 /
      (sqrtPriceUpperX64 - sqrtPriceLowerX64)
    some (if roundUp then (quotient + 2 ^ 64 - 1) / 2 ^ 64 else quotient / 2 ^ 64)

/-- Modelled from the spec: `getLiquidityFromTokenB` (`position-util.ts` is
not under `src/`).  §4.B: inverse of the token-B amount-delta formula, i.e.
`L = amount·2^64 / (√P_hi − √P_lo)`.  `none` when `√P_hi ≤ √P_lo`. -/
def getLiquidityFromTokenB_spec (amount sqrtPriceLowerX64 sqrtPriceUpperX64 : Nat)
    (roundUp : Bool) : Option Nat :=
  if sqrtPriceUpperX64 ≤ sqrtPriceLowerX64 then none
  else
    let d := sqrtPriceUpperX64 - sqrtPriceLowerX64
    some (if roundUp then (amount * 2 ^ 64 + d - 1) / d else amount * 2 ^ 64 / d)

/-- Modelled from the spec: `getTokenAFromLiquidity` (§4.A
`getAmountADelta`): `ceil_or_floor(L·(√P_hi − √P_lo)·2^64 / (√P_hi·√P_lo))`. -/
def getTokenAFromLiquidity_spec (liquidity sqrtPriceLowerX64 sqrtPriceUpperX64 : Nat)
    (roundUp : Bool) : Nat :=
  let n := liquidity * (sqrtPriceUpperX64 - sqrtPriceLowerX64) * 2 ^ 64
  let d := sqrtPriceUpperX64 * sqrtPriceLowerX64
  if d = 0 then 0 else if roundUp then (n + d - 1) / d else n / d

/-- Modelled from the spec: `getTokenBFromLiquidity` (§4.A
`getAmountBDelta`): `ceil_or_floor(L·(√P_hi − √P_lo) / 2^64)`. -/
def getTokenBFromLiquidity_spec (liquidity sqrtPriceLowerX64 sqrtPriceUpperX64 : Nat)
    (roundUp : Bool) : Nat :=
  let n := liquidity * (sqrtPriceUpperX64 - sqrtPriceLowerX64)
  if roundUp then (n + 2 ^ 64 - 1) / 2 ^ 64 else n / 2 ^ 64

/-- A toy strictly monotone tick-to-sqrt-price table for concrete runs:
`√P(t) = 2^64 + t·2^50` for the small non-negative ticks exercised by the
concrete inputs (the exact product-of-powers constants live outside
`src/`). -/
def toyTickIndexToSqrtPriceX64 (t : Int) : Nat :=
  (2 ^ 64 + t * 2 ^ 50).toNat

/-- A concrete `LiqEnv` built from the spec-modelled helpers and the toy
price table; slippage bounds left at the identity and slippage adjustment at
the identity (both are universally quantified in every theorem that matters,
this instance only drives concrete evaluation). -/
def toyLiqEnv : LiqEnv :=
  { tickIndexToSqrtPriceX64 := toyTickIndexToSqrtPriceX64
    getTokenAFromLiquidity := getTokenAFromLiquidity_spec
    getTokenBFromLiquidity := getTokenBFromLiquidity_spec
    getLiquidityFromTokenA := getLiquidityFromTokenA_spec
    getLiquidityFromTokenB := getLiquidityFromTokenB_spec
    getSlippageBoundForSqrtPrice := fun p _ => ((p, 0), (p, 0))
    adjustForSlippage := fun n _ _ => n }

/-! ## Percentage amounts (`generatePercentageAmounts`, src lines 355–365) -/

/-- `generatePercentageAmounts`: for `i = 1 .. ⌊100 / minPercent⌋` pushes
`i·minPercent` to `percents` and `⌊inputAmount·i·minPercent / 100⌋` to
`amounts` (BN arithmetic is exact, division floors; the JS loop bound
`i <= 100 / minPercent` with real division over integer `i` is exactly
`i ≤ ⌊100 / minPercent⌋`). -/
def generatePercentageAmounts (inputAmount : Nat) (minPercent : Nat := 5) :
    List Nat × List Nat :=
  ((List.range (100 / minPercent)).map fun i => (i + 1) * minPercent,
   (List.range (100 / minPercent)).map fun i => inputAmount * ((i + 1) * minPercent) / 100)

/-! ## The split router (`src/unnamed/part_000`) -/

/-- `TokenPairPool` (from pool-graph): a pool address plus its two ordered
token mints, which is all `buildQuoteUpdateRequests` reads from it. -/
structure TokenPairPool where
  address : String
  tokenMintA : String
  tokenMintB : String
deriving DecidableEq, Repr

/-- A swap-quote request as assembled by `buildQuoteUpdateRequests`. -/
structure SwapQuoteRequest where
  whirlpool : String
  tradeTokenMint : String
  tokenAmount : Nat
  amountSpecifiedIsInput : Bool
deriving DecidableEq, Repr

/-- The pool-state fields of a `SwapQuoteParam` that `updateQuoteMap`
reads. -/
structure WhirlpoolDataModel where
  tokenMintA : String
  tokenMintB : String
  tokenVaultA : String
  tokenVaultB : String
deriving DecidableEq, Repr

/-- The fields of a single-pool swap quote that the router reads. -/
structure SwapQuote where
  estimatedAmountIn : Nat
  estimatedAmountOut : Nat
  otherAmountThreshold : Nat
deriving DecidableEq, Repr

/-- `SwapQuoteParam` (the fields the router destructures). -/
structure SwapQuoteParam where
  whirlpoolData : WhirlpoolDataModel
  tokenAmount : Nat
  aToB : Bool
  amountSpecifiedIsInput : Bool
deriving DecidableEq, Repr

/-- One calculated hop, as written by `updateQuoteMap` (src lines 190–202). -/
structure CalculatedHop where
  percent : Nat
  amountIn : Nat
  amountOut : Nat
  whirlpool : String
  inputMint : String
  outputMint : String
  mintA : String
  mintB : String
  vaultA : String
  vaultB : String
  quote : SwapQuote
deriving DecidableEq, Repr

/-- The in-progress per-(percent, route) record
(`Pick<RouteQuote, "route" | "percent" | "calculatedHops">`); hop slots are
`none` until a quote for them succeeds (`Array(route.length)` of holes). -/
structure PartialRouteQuote where
  percent : Nat
  route : List String
  calculatedHops : List (Option CalculatedHop)
deriving DecidableEq, Repr

/-- The mutable `quoteMap`: an association list from percent to the array of
per-route cells (JS `Record<number, ...>`; integer keys enumerate in
ascending numeric order, which is also the insertion order here since
percents are generated ascending). -/
abbrev QuoteMap := List (Nat × List (Option PartialRouteQuote))

/-- One entry of the `quoteUpdates` list built per hop (its `quoteIndex` is
its position in the list, kept implicit by zipping with the params). -/
structure QuoteUpdate where
  percent : Nat
  routeIndex : Nat
  hopIndex : Nat
  address : String
  request : SwapQuoteRequest
deriving DecidableEq, Repr

/-- A completed `RouteQuote` as assembled by `cleanQuoteMap`.  Its
`calculatedHops` are the (all filled, hence unwrapped) hop records. -/
structure RouteQuote where
  percent : Nat
  route : List String
  amountIn : Nat
  amountOut : Nat
  calculatedHops : List CalculatedHop
deriving DecidableEq, Repr

/-- A `SplitResult` (set of route quotes with totals). -/
structure SplitResult where
  quotes : List RouteQuote
  percent : Nat
  totalIn : Nat
  totalOut : Nat
deriving DecidableEq, Repr

/-- The external collaborators of `findBestRoutes` that live in files not
under `src/`: the fetcher-backed param builder (`batchSwapQuoteByToken`
resolves each request's pool state), the single-pool swap simulator
(`swapQuoteWithParams`, whose thrown errors are `Except.error`), and the
split-set ranker (`getRankedRouteSets` from rank-route-sets.ts). -/
structure RouterEnv where
  poolData : String → WhirlpoolDataModel
  swapQuoteWithParams : SwapQuoteParam → Percentage → Except Unit SwapQuote
  getRankedRouteSets : List (Nat × List RouteQuote) → Bool → Nat → Nat → List SplitResult

/-- `RoutingOptions`. -/
structure RoutingOptions where
  percentIncrement : Nat
  numTopRoutes : Nat
  numTopPartialQuotes : Nat
  maxSplits : Nat
deriving DecidableEq, Repr

/-- `DEFAULT_ROUTING_OPTIONS` (src lines 31–36). -/
def DEFAULT_ROUTING_OPTIONS : RoutingOptions :=
  { percentIncrement := 20, numTopRoutes := 50, numTopPartialQuotes := 10, maxSplits := 3 }

/-- Lexicographic order on character lists, by code point. -/
def charListLe : List Char → List Char → Bool
  | [], _ => true
  | _ :: _, [] => false
  | a :: as, b :: bs =>
    if a.toNat < b.toNat then true
    else if b.toNat < a.toNat then false
    else charListLe as bs

/-- Modelled from the spec: `getRouteId` (pool-graph.ts is not under `src/`).
§6: `RouteId = canonical(inputMint, outputMint)` — the unordered pair in
canonical (lexicographic) order. -/
def getRouteId (a b : String) : String × String :=
  if charListLe a.data b.data then (a, b) else (b, a)

/-- Read `quoteMap[percent][routeIndex]` (undefined rows/holes are `none`). -/
def getCell (qm : QuoteMap) (percent routeIndex : Nat) : Option PartialRouteQuote :=
  ((qm.lookup percent).getD []).getD routeIndex none

/-- Write `quoteMap[percent][routeIndex]` (no-op on an absent row, which the
router never does). -/
def setCell (qm : QuoteMap) (percent routeIndex : Nat) (c : Option PartialRouteQuote) :
    QuoteMap :=
  qm.map fun pr => if pr.1 = percent then (pr.1, pr.2.set routeIndex c) else pr

/-- `if (!quoteMap[percent]) quoteMap[percent] = Array(pairRoutes.length)`:
adds a fresh row of holes for a percent not yet present. -/
def initRow (qm : QuoteMap) (percent n : Nat) : QuoteMap :=
  if (qm.lookup percent).isSome then qm else qm ++ [(percent, List.replicate n none)]

/-- The body of the inner route loop of `buildQuoteUpdateRequests`
(src lines 232–295) for one `(percent, tradeAmount, routeIndex, route)`:
possibly initialises the cell, and pushes a quote request unless the route
is skipped at this hop.  The pool lookups are resolved with a default pool
here: this is the non-throwing projection of `buildCellStepF` below, which
models the `TypeError`s the source throws on a missing pool;
`buildCellStepF_ok` proves the two agree whenever the pool map covers the
route. -/
def buildCellStep (inputTokenMint outputTokenMint : String)
    (pools : String → Option TokenPairPool)
    (percent tradeAmount hop : Nat) (amountSpecifiedIsInput : Bool)
    (routeIndex : Nat) (route : List String)
    (acc : QuoteMap × List QuoteUpdate) : QuoteMap × List QuoteUpdate :=
  -- already complete (input-specified) or hop beyond the route (output-specified)
  if if amountSpecifiedIsInput then route.length ≤ hop
     else (hop : Int) > (route.length : Int) - 1 then
    acc
  else
    let startingRouteEval : Bool :=
      if amountSpecifiedIsInput then hop = 0 else (hop : Int) = (route.length : Int) - 1
    let qm1 :=
      if startingRouteEval then
        setCell acc.1 percent routeIndex
          (some { percent := percent, route := route
                  calculatedHops := List.replicate route.length none })
      else acc.1
    let currentQuote := (getCell qm1 percent routeIndex).getD
      { percent := percent, route := route, calculatedHops := [] }
    let initialPool := (route.head?.bind pools).getD { address := "", tokenMintA := "", tokenMintB := "" }
    let orderedRoute :=
      if initialPool.tokenMintA ≠ inputTokenMint ∧ initialPool.tokenMintB ≠ inputTokenMint then
        route.reverse
      else route
    let pool := (pools (orderedRoute.getD hop "")).getD { address := "", tokenMintA := "", tokenMintB := "" }
    let lastHop :=
      if amountSpecifiedIsInput then currentQuote.calculatedHops.getD (hop - 1) none
      else currentQuote.calculatedHops.getD (hop + 1) none
    (qm1,
     if ¬ startingRouteEval ∧ lastHop = none then
       acc.2
     else
       let ta :=
         if amountSpecifiedIsInput then
           if startingRouteEval then (tradeAmount, inputTokenMint)
           else
             match lastHop with
             | some lh => (lh.amountOut, lh.outputMint)
             | none => (0, "")
         else
           if startingRouteEval then (tradeAmount, outputTokenMint)
           else
             match lastHop with
             | some lh => (lh.amountIn, lh.inputMint)
             | none => (0, "")
       acc.2 ++ [{ percent := percent, routeIndex := routeIndex, hopIndex := hop
                   address := pool.address
                   request := { whirlpool := pool.address, tradeTokenMint := ta.2
                                tokenAmount := ta.1
                                amountSpecifiedIsInput := amountSpecifiedIsInput } }])

/-- `buildQuoteUpdateRequests` (src lines 209–298): for one hop, iterate
over percents and routes, initialise quote-map rows and cells, and collect
the batch of swap-quote requests (returned together with the mutated
quote map). -/
def buildQuoteUpdateRequests (inputTokenMint outputTokenMint : String)
    (pools : String → Option TokenPairPool) (pairRoutes : List (List String))
    (percentAmounts : List (Nat × Nat)) (hop : Nat) (amountSpecifiedIsInput : Bool)
    (quoteMap : QuoteMap) : QuoteMap × List QuoteUpdate :=
  percentAmounts.foldl
    (fun acc pa =>
      pairRoutes.enum.foldl
        (fun acc2 ir =>
          buildCellStep inputTokenMint outputTokenMint pools pa.1 pa.2 hop
            amountSpecifiedIsInput ir.1 ir.2 acc2)
        (initRow acc.1 pa.1 pairRoutes.length, acc.2))
    (quoteMap, [])

/-- Modelled from the spec: `batchSwapQuoteByToken` (swap-quote.ts is not
under `src/`) resolves each request, in order (§5: batching preserves
request order), to a `SwapQuoteParam`: pool state from the fetcher
(`env.poolData`), `aToB` by matching the trade token against the pool's
mint A (§4.F step 3), amount and direction copied from the request. -/
def batchSwapQuoteByToken (env : RouterEnv) (reqs : List SwapQuoteRequest) :
    List SwapQuoteParam :=
  reqs.map fun r =>
    { whirlpoolData := env.poolData r.whirlpool
      tokenAmount := r.tokenAmount
      aToB := (env.poolData r.whirlpool).tokenMintA = r.tradeTokenMint
      amountSpecifiedIsInput := r.amountSpecifiedIsInput }

/-- Write one calculated hop into `quoteMap[percent][routeIndex]` (no-op on
a missing cell, which updates emitted by `buildQuoteUpdateRequests` never
hit). -/
def setCellHop (qm : QuoteMap) (percent routeIndex hopIndex : Nat) (h : CalculatedHop) :
    QuoteMap :=
  match getCell qm percent routeIndex with
  | none => qm
  | some c =>
    setCell qm percent routeIndex
      (some { c with calculatedHops := c.calculatedHops.set hopIndex (some h) })

/-- One iteration of `updateQuoteMap`'s loop (src lines 177–205): quote the
hop with zero slippage (`Percentage.fromFraction(0, 1000)`); on failure skip
(the `catch { continue }`), on success record the hop, the non-specified
side taken from `quote.otherAmountThreshold`. -/
def updateQuoteMapStep (env : RouterEnv) (qm : QuoteMap)
    (up : QuoteUpdate × SwapQuoteParam) : QuoteMap :=
  let u := up.1
  let swapParam := up.2
  match env.swapQuoteWithParams swapParam (Percentage.fromFraction 0 1000) with
  | .error _ => qm
  | .ok quote =>
    let mintA := swapParam.whirlpoolData.tokenMintA
    let mintB := swapParam.whirlpoolData.tokenMintB
    let io := if swapParam.aToB then (mintA, mintB) else (mintB, mintA)
    setCellHop qm u.percent u.routeIndex u.hopIndex
      { percent := u.percent
        amountIn := if swapParam.amountSpecifiedIsInput then swapParam.tokenAmount
                    else quote.otherAmountThreshold
        amountOut := if swapParam.amountSpecifiedIsInput then quote.otherAmountThreshold
                     else swapParam.tokenAmount
        whirlpool := u.address
        inputMint := io.1
        outputMint := io.2
        mintA := mintA, mintB := mintB
        vaultA := swapParam.whirlpoolData.tokenVaultA
        vaultB := swapParam.whirlpoolData.tokenVaultB
        quote := quote }

/-- `updateQuoteMap` (src lines 172–207): apply the batch of quote results
to the quote map (`quoteIndex` alignment by zipping). -/
def updateQuoteMap (env : RouterEnv) (quoteUpdates : List QuoteUpdate)
    (quoteParams : List SwapQuoteParam) (quoteMap : QuoteMap) : QuoteMap :=
  (quoteUpdates.zip quoteParams).foldl (updateQuoteMapStep env) quoteMap

/-- Errors `findBestRoutes` can actually throw (outside the caught per-hop
quote errors): `Array(-Infinity)` on an empty route list, and destructuring
or indexing `undefined` in `cleanQuoteMap`. -/
inductive RouterError where
  | invalidArrayLength
  | typeError
deriving DecidableEq, Repr

/-- The per-cell body of `cleanQuoteMap`'s loop (src lines 317–331): a hole
is the JS destructuring of `undefined` (throws); a cell is kept iff every
hop slot is filled, annotating `amountIn`/`amountOut` with the trade amount
on the specified side and the boundary hop's amount on the other side.
The kept `calculatedHops` are stored unwrapped (all slots are filled, so the
unwrapped list is elementwise the stored array). -/
def cleanCell (tradeAmount : Nat) (amountSpecifiedIsInput : Bool)
    (cell : Option PartialRouteQuote) : Except RouterError (Option RouteQuote) :=
  match cell with
  | none => .error .typeError
  | some c =>
    let filteredCalculatedHops := c.calculatedHops.filterMap id
    if filteredCalculatedHops.length = c.route.length then
      match if amountSpecifiedIsInput then c.calculatedHops.getLast?.join
            else c.calculatedHops.head?.join with
      | none => .error .typeError
      | some bh =>
        let otherAmount := if amountSpecifiedIsInput then bh.amountOut else bh.amountIn
        .ok (some { percent := c.percent
                    route := c.route
                    amountIn := if amountSpecifiedIsInput then tradeAmount else otherAmount
                    amountOut := if amountSpecifiedIsInput then otherAmount else tradeAmount
                    calculatedHops := filteredCalculatedHops })
    else
      .ok none

/-- One row of `cleanQuoteMap`. -/
def cleanRow (tradeAmount : Nat) (amountSpecifiedIsInput : Bool) :
    List (Option PartialRouteQuote) → Except RouterError (List RouteQuote)
  | [] => .ok []
  | c :: rest =>
    match cleanCell tradeAmount amountSpecifiedIsInput c with
    | .error e => .error e
    | .ok none => cleanRow tradeAmount amountSpecifiedIsInput rest
    | .ok (some rq) =>
      match cleanRow tradeAmount amountSpecifiedIsInput rest with
      | .error e => .error e
      | .ok rqs => .ok (rq :: rqs)

/-- `cleanQuoteMap` (src lines 306–335): keep, per percent, exactly the
completed routes, annotated with top-level amounts. -/
def cleanQuoteMap (tradeAmount : Nat) (amountSpecifiedIsInput : Bool) :
    QuoteMap → Except RouterError (List (Nat × List RouteQuote))
  | [] => .ok []
  | (p, row) :: rest =>
    match cleanRow tradeAmount amountSpecifiedIsInput row with
    | .error e => .error e
    | .ok crow =>
      match cleanQuoteMap tradeAmount amountSpecifiedIsInput rest with
      | .error e => .error e
      | .ok crest => .ok ((p, crow) :: crest)

/-- `getSingleHopSplit` (src lines 157–170): the 100% single-hop quotes of
the cleaned map, as one-route split results with totals from the single
hop. -/
def getSingleHopSplit (quoteMap : List (Nat × List RouteQuote)) : List SplitResult :=
  match quoteMap.lookup 100 with
  | some fullFlow =>
    (fullFlow.filter fun f => f.calculatedHops.length = 1).map fun f =>
      { quotes := [f]
        percent := 100
        totalIn := ((f.calculatedHops.head?).map (·.amountIn)).getD 0
        totalOut := ((f.calculatedHops.head?).map (·.amountOut)).getD 0 }
  | none => []

/-- `pruneQuoteMap` (src lines 337–353): per percent, sort by the objective
(descending `amountOut` when input-specified, ascending `amountIn`
otherwise) and keep the first `pruneN`. -/
def pruneQuoteMap (quoteMap : List (Nat × List RouteQuote)) (pruneN : Nat)
    (amountSpecifiedIsInput : Bool) : List (Nat × List RouteQuote) :=
  quoteMap.map fun pr =>
    (pr.1,
     (pr.2.mergeSort fun a b =>
        if amountSpecifiedIsInput then b.amountOut ≤ a.amountOut
        else a.amountIn ≤ b.amountIn).take pruneN)

/-- Modelled from the spec: `getRouteSetCompare` (rank-route-sets.ts is not
under `src/`).  §4.F: split sets are "globally sorted by the objective" —
maximal `totalOut` first when the input is specified, minimal `totalIn`
first otherwise.  Encoded as the corresponding total boolean order. -/
def routeSetLe (amountSpecifiedIsInput : Bool) (a b : SplitResult) : Bool :=
  if amountSpecifiedIsInput then b.totalOut ≤ a.totalOut else a.totalIn ≤ b.totalIn

/-- One hop iteration of `findBestRoutes`'s loop (src lines 117–139): build
the requests (mutating the quote map), batch-resolve them, and apply the
results. -/
def routerHopStep (env : RouterEnv) (inputTokenMint outputTokenMint : String)
    (pools : String → Option TokenPairPool) (pairRoutes : List (List String))
    (percentAmounts : List (Nat × Nat)) (amountSpecifiedIsInput : Bool)
    (qm : QuoteMap) (hop : Nat) : QuoteMap :=
  let built := buildQuoteUpdateRequests inputTokenMint outputTokenMint pools pairRoutes
    percentAmounts hop amountSpecifiedIsInput qm
  let quoteParams := batchSwapQuoteByToken env (built.2.map (·.request))
  updateQuoteMap env built.2 quoteParams built.1

/-- The quote map at the end of `findBestRoutes`'s hop loop: hops `0 ..
maxRouteLength-1` in order when the input amount is specified, reversed
otherwise. -/
def routerQuoteMap (env : RouterEnv) (inputTokenMint outputTokenMint : String)
    (tradeAmount : Nat) (amountSpecifiedIsInput : Bool)
    (pairRoutes : List (List String)) (pools : String → Option TokenPairPool)
    (percentIncrement : Nat) : QuoteMap :=
  let pa := generatePercentageAmounts tradeAmount percentIncrement
  let maxRouteLength := (pairRoutes.map List.length).foldl Nat.max 0
  let iteration :=
    if amountSpecifiedIsInput then List.range maxRouteLength
    else (List.range maxRouteLength).reverse
  iteration.foldl
    (routerHopStep env inputTokenMint outputTokenMint pools pairRoutes (pa.1.zip pa.2)
      amountSpecifiedIsInput)
    []

/-- `findBestRoutes` (src lines 79–155).  `Except`-valued: `.ok` is the
returned list; `.error .invalidArrayLength` is the `RangeError` thrown by
`Array(Math.max())` when the walks entry is an empty list of routes;
`.error .typeError` propagates from `cleanQuoteMap` (holes left by
zero-length routes).  The prefetch is state on the fetcher only and has no
bearing on the result.  This is the non-throwing projection of the full
model `findBestRoutesF` below: the missing-pool `TypeError` of
`buildQuoteUpdateRequests` is not modelled here, and `findBestRoutesF_eq`
proves the two agree whenever the pool map covers every route of the walks
entry. -/
def findBestRoutesE (env : RouterEnv) (inputTokenMint outputTokenMint : String)
    (tradeAmount : Nat) (amountSpecifiedIsInput : Bool)
    (walks : List ((String × String) × List (List String)))
    (pools : String → Option TokenPairPool) (opts : RoutingOptions) :
    Except RouterError (List SplitResult) :=
  match walks.lookup (getRouteId inputTokenMint outputTokenMint) with
  | none => .ok []
  | some pairRoutes =>
    if tradeAmount = 0 then .ok []
    else if pairRoutes.isEmpty then .error .invalidArrayLength
    else
      match cleanQuoteMap tradeAmount amountSpecifiedIsInput
          (routerQuoteMap env inputTokenMint outputTokenMint tradeAmount
            amountSpecifiedIsInput pairRoutes pools opts.percentIncrement) with
      | .error e => .error e
      | .ok cleanedQuoteMap =>
        let singleHopSingleSplit := getSingleHopSplit cleanedQuoteMap
        let prunedQuoteMap := pruneQuoteMap cleanedQuoteMap opts.numTopPartialQuotes
          amountSpecifiedIsInput
        .ok ((env.getRankedRouteSets prunedQuoteMap amountSpecifiedIsInput opts.numTopRoutes
                opts.maxSplits ++ singleHopSingleSplit).mergeSort
              (routeSetLe amountSpecifiedIsInput))

/-! ### The full (throwing) router

`buildQuoteUpdateRequests` has two throw points the projection above elides:
`pools[route[0]]` and `pools[orderedRoute[hop]]` yield `undefined` when the
pool map lacks the address, and the subsequent property accesses throw
`TypeError`s that propagate out of `findBestRoutes` (the only `try`/`catch`
is around the per-quote computation in `updateQuoteMap`).  The `F` versions
model the full behaviour. -/

/-- Sequential error propagation of a JS loop: once an exception has been
thrown, no further iteration runs. -/
def exceptStep {α β : Type _} (body : β → α → Except RouterError β)
    (acc : Except RouterError β) (a : α) : Except RouterError β :=
  match acc with
  | .error e => .error e
  | .ok b => body b a

/-- The body of the inner route loop of `buildQuoteUpdateRequests`
(src lines 232–295) with its two throw points: a missing `pools[route[0]]`
makes `AddressUtil.toPubKey(initialPool.tokenMintA)` throw a `TypeError` on
every non-skipped iteration, and a missing `pools[orderedRoute[hop]]` makes
`pool.address` throw exactly when a request is pushed (the
`!startingRouteEval && !lastHop` `continue` skips the push without touching
`pool`, so a failed previous hop masks a missing later pool).  The cell
initialisation that precedes the first throw in the source only mutates
state the propagating exception discards, so the model checks the pool
before the writes. -/
def buildCellStepF (inputTokenMint outputTokenMint : String)
    (pools : String → Option TokenPairPool)
    (percent tradeAmount hop : Nat) (amountSpecifiedIsInput : Bool)
    (routeIndex : Nat) (route : List String)
    (acc : QuoteMap × List QuoteUpdate) :
    Except RouterError (QuoteMap × List QuoteUpdate) :=
  if if amountSpecifiedIsInput then route.length ≤ hop
     else (hop : Int) > (route.length : Int) - 1 then
    .ok acc
  else
    match route.head?.bind pools with
    | none => .error .typeError
    | some initialPool =>
      let startingRouteEval : Bool :=
        if amountSpecifiedIsInput then hop = 0 else (hop : Int) = (route.length : Int) - 1
      let qm1 :=
        if startingRouteEval then
          setCell acc.1 percent routeIndex
            (some { percent := percent, route := route
                    calculatedHops := List.replicate route.length none })
        else acc.1
      let currentQuote := (getCell qm1 percent routeIndex).getD
        { percent := percent, route := route, calculatedHops := [] }
      let orderedRoute :=
        if initialPool.tokenMintA ≠ inputTokenMint ∧ initialPool.tokenMintB ≠ inputTokenMint then
          route.reverse
        else route
      let lastHop :=
        if amountSpecifiedIsInput then currentQuote.calculatedHops.getD (hop - 1) none
        else currentQuote.calculatedHops.getD (hop + 1) none
      if ¬ startingRouteEval ∧ lastHop = none then
        .ok (qm1, acc.2)
      else
        match pools (orderedRoute.getD hop "") with
        | none => .error .typeError
        | some pool =>
          let ta :=
            if amountSpecifiedIsInput then
              if startingRouteEval then (tradeAmount, inputTokenMint)
              else
                match lastHop with
                | some lh => (lh.amountOut, lh.outputMint)
                | none => (0, "")
            else
              if startingRouteEval then (tradeAmount, outputTokenMint)
              else
                match lastHop with
                | some lh => (lh.amountIn, lh.inputMint)
                | none => (0, "")
          .ok (qm1,
            acc.2 ++ [{ percent := percent, routeIndex := routeIndex, hopIndex := hop
                        address := pool.address
                        request := { whirlpool := pool.address, tradeTokenMint := ta.2
                                     tokenAmount := ta.1
                                     amountSpecifiedIsInput := amountSpecifiedIsInput } }])

/-- `buildQuoteUpdateRequests` (src lines 209–298) with the missing-pool
`TypeError`s propagated (the function has no `try`/`catch`, so a throw
aborts both loops). -/
def buildQuoteUpdateRequestsF (inputTokenMint outputTokenMint : String)
    (pools : String → Option TokenPairPool) (pairRoutes : List (List String))
    (percentAmounts : List (Nat × Nat)) (hop : Nat) (amountSpecifiedIsInput : Bool)
    (quoteMap : QuoteMap) : Except RouterError (QuoteMap × List QuoteUpdate) :=
  percentAmounts.foldl
    (exceptStep fun acc pa =>
      pairRoutes.enum.foldl
        (exceptStep fun acc2 ir =>
          buildCellStepF inputTokenMint outputTokenMint pools pa.1 pa.2 hop
            amountSpecifiedIsInput ir.1 ir.2 acc2)
        (.ok (initRow acc.1 pa.1 pairRoutes.length, acc.2)))
    (.ok (quoteMap, []))

/-- One hop iteration of `findBestRoutes`'s loop with the missing-pool
`TypeError` propagated; quoting itself still cannot fail the hop
(`updateQuoteMap` catches per-quote errors). -/
def routerHopStepF (env : RouterEnv) (inputTokenMint outputTokenMint : String)
    (pools : String → Option TokenPairPool) (pairRoutes : List (List String))
    (percentAmounts : List (Nat × Nat)) (amountSpecifiedIsInput : Bool)
    (qm : QuoteMap) (hop : Nat) : Except RouterError QuoteMap :=
  match buildQuoteUpdateRequestsF inputTokenMint outputTokenMint pools pairRoutes
      percentAmounts hop amountSpecifiedIsInput qm with
  | .error e => .error e
  | .ok built =>
    .ok (updateQuoteMap env built.2 (batchSwapQuoteByToken env (built.2.map (·.request)))
      built.1)

/-- The quote map at the end of the hop loop, with the missing-pool
`TypeError` propagated out of the loop. -/
def routerQuoteMapF (env : RouterEnv) (inputTokenMint outputTokenMint : String)
    (tradeAmount : Nat) (amountSpecifiedIsInput : Bool)
    (pairRoutes : List (List String)) (pools : String → Option TokenPairPool)
    (percentIncrement : Nat) : Except RouterError QuoteMap :=
  let pa := generatePercentageAmounts tradeAmount percentIncrement
  let maxRouteLength := (pairRoutes.map List.length).foldl Nat.max 0
  let iteration :=
    if amountSpecifiedIsInput then List.range maxRouteLength
    else (List.range maxRouteLength).reverse
  iteration.foldl
    (exceptStep (routerHopStepF env inputTokenMint outputTokenMint pools pairRoutes
      (pa.1.zip pa.2) amountSpecifiedIsInput))
    (.ok [])

/-- `findBestRoutes` (src lines 79–155), full model.  `.ok` is the returned
list; `.error .invalidArrayLength` is the `RangeError` thrown by
`Array(Math.max())` when the walks entry is an empty list of routes;
`.error .typeError` is thrown by `buildQuoteUpdateRequests` when a route
names a pool the pool map does not contain (`initialPool.tokenMintA` /
`pool.address` on `undefined`), or by `cleanQuoteMap` on the holes left by
zero-length routes. -/
def findBestRoutesF (env : RouterEnv) (inputTokenMint outputTokenMint : String)
    (tradeAmount : Nat) (amountSpecifiedIsInput : Bool)
    (walks : List ((String × String) × List (List String)))
    (pools : String → Option TokenPairPool) (opts : RoutingOptions) :
    Except RouterError (List SplitResult) :=
  match walks.lookup (getRouteId inputTokenMint outputTokenMint) with
  | none => .ok []
  | some pairRoutes =>
    if tradeAmount = 0 then .ok []
    else if pairRoutes.isEmpty then .error .invalidArrayLength
    else
      match routerQuoteMapF env inputTokenMint outputTokenMint tradeAmount
          amountSpecifiedIsInput pairRoutes pools opts.percentIncrement with
      | .error e => .error e
      | .ok qm =>
        match cleanQuoteMap tradeAmount amountSpecifiedIsInput qm with
        | .error e => .error e
        | .ok cleanedQuoteMap =>
          let singleHopSingleSplit := getSingleHopSplit cleanedQuoteMap
          let prunedQuoteMap := pruneQuoteMap cleanedQuoteMap opts.numTopPartialQuotes
            amountSpecifiedIsInput
          .ok ((env.getRankedRouteSets prunedQuoteMap amountSpecifiedIsInput opts.numTopRoutes
                  opts.maxSplits ++ singleHopSingleSplit).mergeSort
                (routeSetLe amountSpecifiedIsInput))

/-! ### A concrete router scenario, for counterexamples and witnesses

One pool `"P"` between mints `"A"` and `"B"`, a single one-hop route, and an
environment whose swap quoter echoes the requested amount. -/

/-- The single-pool table of the concrete scenario. -/
def cexPools : String → Option TokenPairPool := fun a =>
  if a = "P" then some { address := "P", tokenMintA := "A", tokenMintB := "B" } else none

/-- The walks mapping of the concrete scenario: one route `["P"]` for the
pair `("A", "B")`. -/
def cexWalks : List ((String × String) × List (List String)) :=
  [(("A", "B"), [["P"]])]

/-- A concrete environment: pool data for `"P"`, a swap quoter that echoes
the requested amount as estimate and threshold, and an empty ranker. -/
def cexEnv : RouterEnv :=
  { poolData := fun _ =>
      { tokenMintA := "A", tokenMintB := "B", tokenVaultA := "VA", tokenVaultB := "VB" }
    swapQuoteWithParams := fun p _ =>
      .ok { estimatedAmountIn := p.tokenAmount, estimatedAmountOut := p.tokenAmount
            otherAmountThreshold := p.tokenAmount }
    getRankedRouteSets := fun _ _ _ _ => [] }

/-- The concrete environment with a swap quoter that always fails. -/
def cexEnvFailing : RouterEnv :=
  { cexEnv with swapQuoteWithParams := fun _ _ => .error () }

/-- The concrete environment restricted to slippage `0/1000`: quotes at any
other slippage fail. -/
def cexEnvZeroOnly : RouterEnv :=
  { cexEnv with
    swapQuoteWithParams := fun p s =>
      if s.num = 0 then cexEnv.swapQuoteWithParams p s else .error () }

/-- The cleaned quote map of the concrete scenario (trade amount 10,
input-specified, percent increment 50). -/
def cexCleaned : List (Nat × List RouteQuote) :=
  (cleanQuoteMap 10 true
    (routerQuoteMap cexEnv "A" "B" 10 true [["P"]] cexPools 50)).toOption.getD []

/-- Routing options with a 50% increment, otherwise the defaults. -/
def cexOpts : RoutingOptions :=
  { percentIncrement := 50, numTopRoutes := 50, numTopPartialQuotes := 10, maxSplits := 3 }

/-- The split results of the concrete scenario. -/
def cexResult : List SplitResult :=
  (findBestRoutesE cexEnv "A" "B" 10 true cexWalks cexPools cexOpts).toOption.getD []

/-- A concrete by-liquidity quote parameter: 5 units of liquidity in the
range `[0, 64]` with the current tick at 32. -/
def c4prms : IncreaseLiquidityQuoteByLiquidityParam :=
  { liquidity := 5
    tickCurrentIndex := 32
    sqrtPrice := toyTickIndexToSqrtPriceX64 32
    tickLowerIndex := 0
    tickUpperIndex := 64
    slippage := ⟨1, 100⟩ }

/-- The quote produced for `c4prms` under the toy environment. -/
def c4q : IncreaseLiquidityQuote :=
  (increaseLiquidityQuoteByLiquidityWithParams toyLiqEnv c4prms).getD zeroLiquidityQuote

/-- A concrete input-token quote parameter with a zero input amount. -/
def c5param : IncreaseLiquidityQuoteParam :=
  { inputTokenAmount := 0
    inputTokenMint := "A"
    tokenMintA := "A"
    tokenMintB := "B"
    tickCurrentIndex := 32
    sqrtPrice := toyTickIndexToSqrtPriceX64 32
    tickLowerIndex := 0
    tickUpperIndex := 64
    slippage := ⟨1, 100⟩ }

/-- A concrete by-liquidity quote parameter with zero liquidity. -/
def c5lp : IncreaseLiquidityQuoteByLiquidityParam :=
  { liquidity := 0
    tickCurrentIndex := 32
    sqrtPrice := toyTickIndexToSqrtPriceX64 32
    tickLowerIndex := 0
    tickUpperIndex := 64
    slippage := ⟨1, 100⟩ }

/-- A concrete input-token quote parameter below range (current tick −10,
range `[0, 64]`) depositing token B. -/
def c7param : IncreaseLiquidityQuoteParam :=
  { inputTokenAmount := 1000
    inputTokenMint := "B"
    tokenMintA := "A"
    tokenMintB := "B"
    tickCurrentIndex := -10
    sqrtPrice := toyTickIndexToSqrtPriceX64 (-10)
    tickLowerIndex := 0
    tickUpperIndex := 64
    slippage := ⟨1, 100⟩ }

/-- The legacy quote produced for `c7param` under the toy environment. -/
def c7q : IncreaseLiquidityQuote :=
  (increaseLiquidityQuoteByInputTokenWithParams toyLiqEnv c7param).getD zeroLiquidityQuote

/-- Modelled from the spec: the `otherAmountThreshold` of a single-pool swap
quote (swap-quote.ts is not under `src/`).  §4.D output: the
slippage-adjusted bound — `floor(estimatedAmountOut·(1−s))` when the input
is specified, `ceil(estimatedAmountIn·(1+s))` otherwise, for
`s = num/den`. -/
def otherAmountThreshold_spec (s : Percentage)
    (estimatedAmountIn estimatedAmountOut : Nat) (amountSpecifiedIsInput : Bool) : Nat :=
  if amountSpecifiedIsInput then estimatedAmountOut * (s.den - s.num) / s.den
  else (estimatedAmountIn * (s.den + s.num) + (s.den - 1)) / s.den

/-- The C3 failing input: position range `[0, 64]`, current tick exactly at
the upper bound (with the matching sqrt price), depositing 1000 of
token A. -/
def c3param : IncreaseLiquidityQuoteParam :=
  { inputTokenAmount := 1000
    inputTokenMint := "A"
    tokenMintA := "A"
    tokenMintB := "B"
    tickCurrentIndex := 64
    sqrtPrice := toyTickIndexToSqrtPriceX64 64
    tickLowerIndex := 0
    tickUpperIndex := 64
    slippage := ⟨0, 100⟩ }

/-! ### Invariants of the router's quote map

These predicates are established along `findBestRoutes`'s hop loop and
consumed by the claims about `cleanQuoteMap` and the final result. -/

/-- The hop at which a route's cell is initialised: the first hop quoted for
it (hop 0 going forward, the last hop going backward). -/
def startingHopFor (amountSpecifiedIsInput : Bool) (route : List String) : Nat :=
  if amountSpecifiedIsInput then 0 else route.length - 1

/-- A recorded hop stores the quote's `otherAmountThreshold` as its
non-specified amount. -/
def hopOk (amountSpecifiedIsInput : Bool) (h : CalculatedHop) : Prop :=
  (if amountSpecifiedIsInput then h.amountOut else h.amountIn) = h.quote.otherAmountThreshold

/-- A cell's hop array has the route's length and all recorded hops are
well-formed. -/
def cellOk (amountSpecifiedIsInput : Bool) (c : PartialRouteQuote) : Prop :=
  c.calculatedHops.length = c.route.length ∧
  ∀ h, some h ∈ c.calculatedHops → hopOk amountSpecifiedIsInput h

/-- All cells of the quote map are well-formed. -/
def qmOk (amountSpecifiedIsInput : Bool) (qm : QuoteMap) : Prop :=
  ∀ pr ∈ qm, ∀ c, some c ∈ pr.2 → cellOk amountSpecifiedIsInput c

/-- Every row of the quote map has one slot per route. -/
def qmShape (n : Nat) (qm : QuoteMap) : Prop :=
  ∀ pr ∈ qm, pr.2.length = n

/-- Every cell's route is one of the candidate routes. -/
def qmRoutes (pairRoutes : List (List String)) (qm : QuoteMap) : Prop :=
  ∀ pr ∈ qm, ∀ c, some c ∈ pr.2 → c.route ∈ pairRoutes

/-- Looking a row's key up finds that row (keys are never duplicated). -/
def qmCoherent (qm : QuoteMap) : Prop :=
  ∀ pr ∈ qm, qm.lookup pr.1 = some pr.2

/-- All row keys come from the generated percents. -/
def qmKeys (percents : List Nat) (qm : QuoteMap) : Prop :=
  ∀ pr ∈ qm, pr.1 ∈ percents

/-- Cell `(percent, routeIndex)` holds a (possibly incomplete) route
record. -/
def filledAt (qm : QuoteMap) (percent routeIndex : Nat) : Prop :=
  (getCell qm percent routeIndex).isSome

/-- The cell value `buildQuoteUpdateRequests` installs at a route's starting
hop: the route with an all-holes hop array. -/
def freshCell (percent : Nat) (route : List String) : PartialRouteQuote :=
  { percent := percent, route := route, calculatedHops := List.replicate route.length none }

/-- The bundled structural invariant of the router's quote map. -/
def qmInv (asii : Bool) (n : Nat) (pairRoutes : List (List String))
    (percents : List Nat) (qm : QuoteMap) : Prop :=
  qmShape n qm ∧ qmOk asii qm ∧ qmRoutes pairRoutes qm ∧ qmCoherent qm ∧ qmKeys percents qm

/-! ## Helper lemmas -/

theorem foldl_rec {α β : Type _} {P : β → Prop} {f : β → α → β} :
    ∀ {l : List α} {b : β}, (∀ b' a, a ∈ l → P b' → P (f b' a)) → P b → P (l.foldl f b) := by
  intro l
  induction l with
  | nil => exact fun _ hb => hb
  | cons a t ih =>
    intro b h hb
    exact ih (fun b' x hx => h b' x (List.mem_cons_of_mem a hx))
      (h b a (List.mem_cons_self a t) hb)

theorem filterMap_id_all_some {α : Type _} :
    ∀ {l : List (Option α)}, (l.filterMap id).length = l.length →
      l = (l.filterMap id).map some := by
  intro l
  induction l with
  | nil => intro; rfl
  | cons c t ih =>
    intro h
    cases c with
    | none =>
      exfalso
      simp only [List.filterMap_cons, id, List.length_cons] at h
      have := List.length_filterMap_le id t
      omega
    | some a =>
      simp only [List.filterMap_cons, id, List.length_cons, List.map_cons] at h ⊢
      exact congrArg (List.cons (some a)) (ih (by omega))

theorem getLast?_join_of_all_some {α : Type _} {l : List (Option α)}
    (h : (l.filterMap id).length = l.length) :
    l.getLast?.join = (l.filterMap id).getLast? := by
  conv_lhs => rw [filterMap_id_all_some h]
  rw [List.getLast?_map]
  cases (l.filterMap id).getLast? <;> rfl

theorem head?_join_of_all_some {α : Type _} {l : List (Option α)}
    (h : (l.filterMap id).length = l.length) :
    l.head?.join = (l.filterMap id).head? := by
  conv_lhs => rw [filterMap_id_all_some h]
  rw [List.head?_map]
  cases (l.filterMap id).head? <;> rfl

theorem isSome_of_all_some {α : Type _} {l : List (Option α)}
    (h : (l.filterMap id).length = l.length) : ∀ x ∈ l, x.isSome := by
  intro x hx
  rw [filterMap_id_all_some h] at hx
  rcases List.mem_map.mp hx with ⟨a, _, rfl⟩
  rfl

theorem lookup_mem {β : Type _} {l : List (Nat × β)} {k : Nat} {v : β}
    (h : l.lookup k = some v) : (k, v) ∈ l := by
  induction l with
  | nil => simp [List.lookup] at h
  | cons p t ih =>
    rw [List.lookup] at h
    by_cases hk : k = p.1
    · rw [beq_iff_eq.mpr hk] at h
      simp only at h
      obtain rfl : p.2 = v := by injection h
      subst hk
      exact List.mem_cons_self p t
    · rw [beq_eq_false_iff_ne.mpr hk] at h
      exact List.mem_cons_of_mem p (ih h)

theorem lookup_append {β : Type _} (l₁ l₂ : List (Nat × β)) (k : Nat) :
    (l₁ ++ l₂).lookup k =
      match l₁.lookup k with
      | some v => some v
      | none => l₂.lookup k := by
  induction l₁ with
  | nil => simp [List.lookup]
  | cons p t ih =>
    rw [List.cons_append, List.lookup, List.lookup]
    cases k == p.1
    · simpa using ih
    · rfl

theorem lookup_map_kv {β γ : Type _} (g : Nat → β → γ) (l : List (Nat × β)) (k : Nat) :
    (l.map fun pr => (pr.1, g pr.1 pr.2)).lookup k = (l.lookup k).map (g k) := by
  induction l with
  | nil => simp [List.lookup]
  | cons p t ih =>
    rw [List.map_cons, List.lookup, List.lookup]
    by_cases hk : k = p.1
    · rw [beq_iff_eq.mpr hk]
      subst hk
      rfl
    · rw [beq_eq_false_iff_ne.mpr hk]
      simpa using ih

theorem mem_of_mem_enum {α : Type _} {l : List α} {x : Nat × α} (h : x ∈ l.enum) :
    x.2 ∈ l := by
  rw [List.enum_eq_zip_range] at h
  exact (List.of_mem_zip (by simpa using h)).2

/-! ## Quote-map operation lemmas -/

theorem setCell_eq_map (qm : QuoteMap) (p i : Nat) (c : Option PartialRouteQuote) :
    setCell qm p i c = qm.map fun pr => (pr.1, if pr.1 = p then pr.2.set i c else pr.2) := by
  unfold setCell
  congr 1
  funext pr
  by_cases h : pr.1 = p <;> simp [h]

theorem lookup_setCell (qm : QuoteMap) (p i : Nat) (c : Option PartialRouteQuote) (k : Nat) :
    (setCell qm p i c).lookup k =
      (qm.lookup k).map (fun row => if k = p then row.set i c else row) := by
  rw [setCell_eq_map]
  exact lookup_map_kv (fun k row => if k = p then row.set i c else row) qm k

theorem lookup_initRow_of_isSome {qm : QuoteMap} {k : Nat} (h : (qm.lookup k).isSome)
    (p n : Nat) : (initRow qm p n).lookup k = qm.lookup k := by
  unfold initRow
  split
  · rfl
  · rw [lookup_append]
    obtain ⟨v, hv⟩ := Option.isSome_iff_exists.mp h
    rw [hv]

theorem lookup_initRow_self (qm : QuoteMap) (p n : Nat) :
    ((initRow qm p n).lookup p).isSome := by
  by_cases h : (qm.lookup p).isSome
  · rwa [lookup_initRow_of_isSome h]
  · unfold initRow
    rw [if_neg h, lookup_append]
    rw [Option.not_isSome_iff_eq_none] at h
    rw [h]
    simp [List.lookup]

theorem qmShape_setCell {n : Nat} {qm : QuoteMap} (h : qmShape n qm) (p i : Nat)
    (c : Option PartialRouteQuote) : qmShape n (setCell qm p i c) := by
  intro pr hpr
  rw [setCell_eq_map] at hpr
  rcases List.mem_map.mp hpr with ⟨q, hq, rfl⟩
  simp only
  split
  · rw [List.length_set]; exact h q hq
  · exact h q hq

theorem qmShape_initRow {n : Nat} {qm : QuoteMap} (h : qmShape n qm) (p : Nat) :
    qmShape n (initRow qm p n) := by
  intro pr hpr
  unfold initRow at hpr
  split at hpr
  · exact h pr hpr
  · rcases List.mem_append.mp hpr with h1 | h1
    · exact h pr h1
    · obtain rfl : pr = (p, List.replicate n none) := by simpa using h1
      simp

theorem getD_none_isSome_iff {α : Type _} {row : List (Option α)} {i : Nat} :
    (row.getD i none).isSome ↔ ∃ a, row[i]? = some (some a) := by
  rw [List.getD_eq_getElem?_getD]
  cases h : row[i]? with
  | none => simp
  | some x => cases x <;> simp

theorem filledAt_setCell_some {qm : QuoteMap} {pq iq : Nat} (h : filledAt qm pq iq)
    (p i : Nat) (c : PartialRouteQuote) : filledAt (setCell qm p i (some c)) pq iq := by
  unfold filledAt getCell at h ⊢
  rw [lookup_setCell]
  cases hq : qm.lookup pq with
  | none => rw [hq] at h; simp at h
  | some row =>
    rw [hq] at h
    simp only [Option.getD_some] at h
    simp only [Option.map_some', Option.getD_some]
    split
    · rw [getD_none_isSome_iff] at h ⊢
      obtain ⟨a, ha⟩ := h
      rw [List.getElem?_set]
      split
      · split
        · exact ⟨c, rfl⟩
        · rename_i hii hlen
          exfalso
          subst hii
          rw [List.getElem?_eq_none (by omega)] at ha
          exact Option.noConfusion ha
      · exact ⟨a, ha⟩
    · exact h

theorem filledAt_initRow {qm : QuoteMap} {pq iq : Nat} (h : filledAt qm pq iq)
    (p n : Nat) : filledAt (initRow qm p n) pq iq := by
  unfold filledAt getCell at h ⊢
  have hs : (qm.lookup pq).isSome := by
    cases hq : qm.lookup pq
    · rw [hq] at h; simp at h
    · simp
  rw [lookup_initRow_of_isSome hs]
  exact h

theorem getCell_setCell_self {qm : QuoteMap} {p : Nat} {row : List (Option PartialRouteQuote)}
    (hrow : qm.lookup p = some row) {i : Nat} (hi : i < row.length)
    (c : Option PartialRouteQuote) : getCell (setCell qm p i c) p i = c := by
  unfold getCell
  rw [lookup_setCell, hrow]
  simp only [Option.map_some', Option.getD_some, if_true, eq_self_iff_true]
  rw [List.getD_eq_getElem?_getD, List.getElem?_set_self (by simpa using hi)]
  rfl

theorem getCell_mem {qm : QuoteMap} {p i : Nat} {c : PartialRouteQuote}
    (h : getCell qm p i = some c) :
    ∃ row, (p, row) ∈ qm ∧ some c ∈ row := by
  unfold getCell at h
  cases hq : qm.lookup p with
  | none => rw [hq] at h; simp at h
  | some row =>
    rw [hq] at h
    simp only [Option.getD_some] at h
    refine ⟨row, lookup_mem hq, ?_⟩
    rw [List.getD_eq_getElem?_getD] at h
    cases hr : row[i]? with
    | none => rw [hr] at h; simp at h
    | some x =>
      rw [hr] at h
      simp only [Option.getD_some] at h
      subst h
      exact List.getElem?_mem hr

/-! ## Quote-map invariants along the hop loop -/

theorem cellOk_fresh (asii : Bool) (percent : Nat) (route : List String) :
    cellOk asii { percent := percent, route := route,
                  calculatedHops := List.replicate route.length none } := by
  constructor
  · simp
  · intro h hh
    rw [List.mem_replicate] at hh
    exact absurd hh.2 (by simp)

theorem qmOk_setCell {asii : Bool} {qm : QuoteMap} (h : qmOk asii qm)
    {c : PartialRouteQuote} (hc : cellOk asii c) (p i : Nat) :
    qmOk asii (setCell qm p i (some c)) := by
  intro pr hpr c' hc'
  rw [setCell_eq_map] at hpr
  rcases List.mem_map.mp hpr with ⟨q, hq, rfl⟩
  simp only at hc'
  split at hc'
  · rcases List.mem_or_eq_of_mem_set hc' with h1 | h1
    · exact h q hq c' h1
    · obtain rfl : c' = c := by injection h1
      exact hc
  · exact h q hq c' hc'

theorem qmOk_initRow {asii : Bool} {qm : QuoteMap} (h : qmOk asii qm) (p n : Nat) :
    qmOk asii (initRow qm p n) := by
  intro pr hpr c hc
  unfold initRow at hpr
  split at hpr
  · exact h pr hpr c hc
  · rcases List.mem_append.mp hpr with h1 | h1
    · exact h pr h1 c hc
    · obtain rfl : pr = (p, List.replicate n none) := by simpa using h1
      rw [List.mem_replicate] at hc
      exact absurd hc.2 (by simp)

theorem qmRoutes_setCell {pairRoutes : List (List String)} {qm : QuoteMap}
    (h : qmRoutes pairRoutes qm) {c : PartialRouteQuote} (hc : c.route ∈ pairRoutes)
    (p i : Nat) : qmRoutes pairRoutes (setCell qm p i (some c)) := by
  intro pr hpr c' hc'
  rw [setCell_eq_map] at hpr
  rcases List.mem_map.mp hpr with ⟨q, hq, rfl⟩
  simp only at hc'
  split at hc'
  · rcases List.mem_or_eq_of_mem_set hc' with h1 | h1
    · exact h q hq c' h1
    · obtain rfl : c' = c := by injection h1
      exact hc
  · exact h q hq c' hc'

theorem qmRoutes_initRow {pairRoutes : List (List String)} {qm : QuoteMap}
    (h : qmRoutes pairRoutes qm) (p n : Nat) : qmRoutes pairRoutes (initRow qm p n) := by
  intro pr hpr c hc
  unfold initRow at hpr
  split at hpr
  · exact h pr hpr c hc
  · rcases List.mem_append.mp hpr with h1 | h1
    · exact h pr h1 c hc
    · obtain rfl : pr = (p, List.replicate n none) := by simpa using h1
      rw [List.mem_replicate] at hc
      exact absurd hc.2 (by simp)

theorem buildCellStep_fst (inM outM : String) (pools : String → Option TokenPairPool)
    (percent tradeAmount hop : Nat) (asii : Bool) (i : Nat) (route : List String)
    (acc : QuoteMap × List QuoteUpdate) :
    (buildCellStep inM outM pools percent tradeAmount hop asii i route acc).1 = acc.1 ∨
    (buildCellStep inM outM pools percent tradeAmount hop asii i route acc).1 =
      setCell acc.1 percent i (some (freshCell percent route)) := by
  simp only [buildCellStep, freshCell]
  repeat
    first
    | exact Or.inl rfl
    | exact Or.inr rfl
    | split

theorem qmCoherent_setCell {qm : QuoteMap} (h : qmCoherent qm) (p i : Nat)
    (c : Option PartialRouteQuote) : qmCoherent (setCell qm p i c) := by
  intro pr hpr
  rw [setCell_eq_map] at hpr ⊢
  rcases List.mem_map.mp hpr with ⟨q, hq, rfl⟩
  simp only
  have hls := lookup_setCell qm p i c q.1
  rw [setCell_eq_map] at hls
  rw [hls, h q hq]
  rfl

theorem qmCoherent_initRow {qm : QuoteMap} (h : qmCoherent qm) (p n : Nat) :
    qmCoherent (initRow qm p n) := by
  intro pr hpr
  unfold initRow at hpr ⊢
  by_cases hp : (qm.lookup p).isSome
  · rw [if_pos hp] at hpr ⊢
    exact h pr hpr
  · rw [if_neg hp] at hpr ⊢
    rw [lookup_append]
    rcases List.mem_append.mp hpr with h1 | h1
    · rw [h pr h1]
    · obtain rfl : pr = (p, List.replicate n none) := by simpa using h1
      rw [Option.not_isSome_iff_eq_none] at hp
      rw [hp]
      simp [List.lookup]

theorem qmKeys_setCell {percents : List Nat} {qm : QuoteMap} (h : qmKeys percents qm)
    (p i : Nat) (c : Option PartialRouteQuote) : qmKeys percents (setCell qm p i c) := by
  intro pr hpr
  rw [setCell_eq_map] at hpr
  rcases List.mem_map.mp hpr with ⟨q, hq, rfl⟩
  exact h q hq

theorem qmKeys_initRow {percents : List Nat} {qm : QuoteMap} (h : qmKeys percents qm)
    {p : Nat} (hp : p ∈ percents) (n : Nat) : qmKeys percents (initRow qm p n) := by
  intro pr hpr
  unfold initRow at hpr
  split at hpr
  · exact h pr hpr
  · rcases List.mem_append.mp hpr with h1 | h1
    · exact h pr h1
    · obtain rfl : pr = (p, List.replicate n none) := by simpa using h1
      exact hp

theorem qmInv_setCell {asii : Bool} {n : Nat} {pairRoutes : List (List String)}
    {percents : List Nat} {qm : QuoteMap} (h : qmInv asii n pairRoutes percents qm)
    {c : PartialRouteQuote} (hc : cellOk asii c) (hcr : c.route ∈ pairRoutes) (p i : Nat) :
    qmInv asii n pairRoutes percents (setCell qm p i (some c)) :=
  ⟨qmShape_setCell h.1 p i _, qmOk_setCell h.2.1 hc p i, qmRoutes_setCell h.2.2.1 hcr p i,
   qmCoherent_setCell h.2.2.2.1 p i _, qmKeys_setCell h.2.2.2.2 p i _⟩

theorem qmInv_initRow {asii : Bool} {n : Nat} {pairRoutes : List (List String)}
    {percents : List Nat} {qm : QuoteMap} (h : qmInv asii n pairRoutes percents qm)
    {p : Nat} (hp : p ∈ percents) :
    qmInv asii n pairRoutes percents (initRow qm p n) :=
  ⟨qmShape_initRow h.1 p, qmOk_initRow h.2.1 p n, qmRoutes_initRow h.2.2.1 p n,
   qmCoherent_initRow h.2.2.2.1 p n, qmKeys_initRow h.2.2.2.2 hp n⟩

theorem qmInv_nil (asii : Bool) (n : Nat) (pairRoutes : List (List String))
    (percents : List Nat) : qmInv asii n pairRoutes percents [] := by
  refine ⟨?_, ?_, ?_, ?_, ?_⟩ <;> intro pr hpr <;> simp at hpr

theorem qmInv_buildCellStep {asii : Bool} {n : Nat} {pairRoutes : List (List String)}
    {percents : List Nat} {acc : QuoteMap × List QuoteUpdate}
    (h : qmInv asii n pairRoutes percents acc.1)
    (inM outM : String) (pools : String → Option TokenPairPool)
    (percent tradeAmount hop i : Nat) {route : List String} (hr : route ∈ pairRoutes) :
    qmInv asii n pairRoutes percents
      (buildCellStep inM outM pools percent tradeAmount hop asii i route acc).1 := by
  rcases buildCellStep_fst inM outM pools percent tradeAmount hop asii i route acc
    with h1 | h1 <;> rw [h1]
  · exact h
  · exact qmInv_setCell h (cellOk_fresh asii percent route) hr percent i

theorem qmInv_build {asii : Bool} {n : Nat} {pairRoutes : List (List String)}
    {percents : List Nat} {qm : QuoteMap} (h : qmInv asii n pairRoutes percents qm)
    (hn : n = pairRoutes.length)
    (inM outM : String) (pools : String → Option TokenPairPool)
    {pa : List (Nat × Nat)} (hpa : ∀ x ∈ pa, (x : Nat × Nat).1 ∈ percents) (hop : Nat) :
    qmInv asii n pairRoutes percents
      (buildQuoteUpdateRequests inM outM pools pairRoutes pa hop asii qm).1 := by
  unfold buildQuoteUpdateRequests
  refine foldl_rec
    (P := fun (acc : QuoteMap × List QuoteUpdate) => qmInv asii n pairRoutes percents acc.1) ?_ h
  intro acc pa0 hpa0 hacc
  refine foldl_rec
    (P := fun (acc2 : QuoteMap × List QuoteUpdate) => qmInv asii n pairRoutes percents acc2.1)
    ?_ ?_
  · intro acc2 ir hir hacc2
    exact qmInv_buildCellStep hacc2 inM outM pools pa0.1 pa0.2 hop ir.1
      (mem_of_mem_enum hir)
  · show qmInv asii n pairRoutes percents (initRow acc.1 pa0.1 pairRoutes.length)
    rw [← hn]
    exact qmInv_initRow hacc (hpa pa0 hpa0)

theorem qmInv_updateQuoteMapStep {asii : Bool} {n : Nat} {pairRoutes : List (List String)}
    {percents : List Nat} {qm : QuoteMap} (h : qmInv asii n pairRoutes percents qm)
    (env : RouterEnv) {u : QuoteUpdate} {param : SwapQuoteParam}
    (hp : param.amountSpecifiedIsInput = asii) :
    qmInv asii n pairRoutes percents (updateQuoteMapStep env qm (u, param)) := by
  simp only [updateQuoteMapStep]
  split
  · exact h
  · rename_i quote
    unfold setCellHop
    cases hc : getCell qm u.percent u.routeIndex with
    | none => exact h
    | some c =>
      obtain ⟨row, hrow, hcm⟩ := getCell_mem hc
      have hcOk : cellOk asii c := h.2.1 (u.percent, row) hrow c hcm
      have hcr : c.route ∈ pairRoutes := h.2.2.1 (u.percent, row) hrow c hcm
      refine qmInv_setCell h ?_ ?_ u.percent u.routeIndex
      · constructor
        · simpa using hcOk.1
        · intro h2 hmem
          simp only at hmem
          rcases List.mem_or_eq_of_mem_set hmem with h3 | h3
          · exact hcOk.2 h2 h3
          · obtain rfl : h2 = _ := by injection h3
            unfold hopOk
            simp only [hp]
            cases asii <;> simp
      · exact hcr

theorem qmInv_updateQuoteMap {asii : Bool} {n : Nat} {pairRoutes : List (List String)}
    {percents : List Nat} {qm : QuoteMap} (h : qmInv asii n pairRoutes percents qm)
    (env : RouterEnv) {updates : List QuoteUpdate} {params : List SwapQuoteParam}
    (hp : ∀ x ∈ updates.zip params, (x : QuoteUpdate × SwapQuoteParam).2.amountSpecifiedIsInput = asii) :
    qmInv asii n pairRoutes percents (updateQuoteMap env updates params qm) := by
  unfold updateQuoteMap
  refine foldl_rec ?_ h
  intro qm' x hx hq
  obtain ⟨u, param⟩ := x
  exact qmInv_updateQuoteMapStep hq env (hp (u, param) hx)

theorem buildCellStep_snd (inM outM : String) (pools : String → Option TokenPairPool)
    (percent tradeAmount hop : Nat) (asii : Bool) (i : Nat) (route : List String)
    (acc : QuoteMap × List QuoteUpdate) :
    (buildCellStep inM outM pools percent tradeAmount hop asii i route acc).2 = acc.2 ∨
    ∃ u, (buildCellStep inM outM pools percent tradeAmount hop asii i route acc).2 =
        acc.2 ++ [u] ∧ u.request.amountSpecifiedIsInput = asii := by
  simp only [buildCellStep]
  repeat
    first
    | exact Or.inl rfl
    | exact Or.inr ⟨_, rfl, rfl⟩
    | split

theorem build_requests_flag (inM outM : String) (pools : String → Option TokenPairPool)
    (pairRoutes : List (List String)) (pa : List (Nat × Nat)) (hop : Nat) (asii : Bool)
    (qm : QuoteMap) :
    ∀ u ∈ (buildQuoteUpdateRequests inM outM pools pairRoutes pa hop asii qm).2,
      u.request.amountSpecifiedIsInput = asii := by
  unfold buildQuoteUpdateRequests
  refine foldl_rec
    (P := fun (acc : QuoteMap × List QuoteUpdate) =>
      ∀ u ∈ acc.2, u.request.amountSpecifiedIsInput = asii) ?_ (by intro u hu; simp at hu)
  intro acc pa0 _ hacc
  refine foldl_rec
    (P := fun (acc2 : QuoteMap × List QuoteUpdate) =>
      ∀ u ∈ acc2.2, u.request.amountSpecifiedIsInput = asii) ?_ hacc
  intro acc2 ir _ hacc2
  rcases buildCellStep_snd inM outM pools pa0.1 pa0.2 hop asii ir.1 ir.2 acc2 with h1 | ⟨u0, h1, h2⟩
  · rw [h1]; exact hacc2
  · rw [h1]
    intro u hu
    rcases List.mem_append.mp hu with h3 | h3
    · exact hacc2 u h3
    · obtain rfl : u = u0 := by simpa using h3
      exact h2

theorem batch_params_flag {asii : Bool} (env : RouterEnv) {updates : List QuoteUpdate}
    (hf : ∀ u ∈ updates, u.request.amountSpecifiedIsInput = asii) :
    ∀ x ∈ updates.zip (batchSwapQuoteByToken env (updates.map (·.request))),
      (x : QuoteUpdate × SwapQuoteParam).2.amountSpecifiedIsInput = asii := by
  intro x hx
  have h2 := (List.of_mem_zip (by exact hx)).2
  unfold batchSwapQuoteByToken at h2
  rw [List.map_map] at h2
  rcases List.mem_map.mp h2 with ⟨u, hu, hEq⟩
  rw [← hEq]
  exact hf u hu

theorem qmInv_routerHopStep {asii : Bool} {n : Nat} {pairRoutes : List (List String)}
    {percents : List Nat} {qm : QuoteMap} (h : qmInv asii n pairRoutes percents qm)
    (hn : n = pairRoutes.length) (env : RouterEnv) (inM outM : String)
    (pools : String → Option TokenPairPool) {pa : List (Nat × Nat)}
    (hpa : ∀ x ∈ pa, (x : Nat × Nat).1 ∈ percents) (hop : Nat) :
    qmInv asii n pairRoutes percents
      (routerHopStep env inM outM pools pairRoutes pa asii qm hop) := by
  unfold routerHopStep
  exact qmInv_updateQuoteMap (qmInv_build h hn inM outM pools hpa hop) env
    (batch_params_flag env (build_requests_flag inM outM pools pairRoutes pa hop asii qm))

theorem routerQuoteMap_qmInv (env : RouterEnv) (inM outM : String) (T : Nat) (asii : Bool)
    (pairRoutes : List (List String)) (pools : String → Option TokenPairPool)
    (pInc : Nat) :
    qmInv asii pairRoutes.length pairRoutes (generatePercentageAmounts T pInc).1
      (routerQuoteMap env inM outM T asii pairRoutes pools pInc) := by
  unfold routerQuoteMap
  refine foldl_rec ?_ (qmInv_nil _ _ _ _)
  intro qm hop _ hq
  refine qmInv_routerHopStep hq rfl env inM outM pools ?_ hop
  intro x hx
  have := (List.of_mem_zip (by exact hx)).1
  exact this

/-! ## Inversion lemmas for the cleanup phase -/

theorem cleanCell_ok_some {T : Nat} {asii : Bool} {cell : Option PartialRouteQuote}
    {rq : RouteQuote} (h : cleanCell T asii cell = .ok (some rq)) :
    ∃ c bh, cell = some c ∧
      (c.calculatedHops.filterMap id).length = c.route.length ∧
      (if asii then c.calculatedHops.getLast?.join else c.calculatedHops.head?.join) = some bh ∧
      rq.percent = c.percent ∧ rq.route = c.route ∧
      rq.calculatedHops = c.calculatedHops.filterMap id ∧
      rq.amountIn = (if asii then T else bh.amountIn) ∧
      rq.amountOut = (if asii then bh.amountOut else T) := by
  cases cell with
  | none => simp [cleanCell] at h
  | some c =>
    simp only [cleanCell] at h
    split at h
    · rename_i hguard
      split at h
      · simp at h
      · rename_i bh hbh
        simp only [Except.ok.injEq, Option.some.injEq] at h
        refine ⟨c, bh, rfl, hguard, hbh, ?_, ?_, ?_, ?_, ?_⟩ <;> rw [← h] <;>
          cases asii <;> simp
    · simp at h

theorem cleanRow_mem {T : Nat} {asii : Bool} :
    ∀ {row : List (Option PartialRouteQuote)} {crow : List RouteQuote},
      cleanRow T asii row = .ok crow →
      ∀ rq ∈ crow, ∃ cell ∈ row, cleanCell T asii cell = .ok (some rq) := by
  intro row
  induction row with
  | nil =>
    intro crow h rq hrq
    simp only [cleanRow, Except.ok.injEq] at h
    subst h
    simp at hrq
  | cons c rest ih =>
    intro crow h rq hrq
    simp only [cleanRow] at h
    split at h
    · simp at h
    · rcases ih h rq hrq with ⟨cell, hc1, hc2⟩
      exact ⟨cell, List.mem_cons_of_mem c hc1, hc2⟩
    · rename_i rq0 hcc
      split at h
      · simp at h
      · rename_i rqs hrest
        simp only [Except.ok.injEq] at h
        subst h
        rcases List.mem_cons.mp hrq with h1 | h1
        · subst h1
          exact ⟨c, List.mem_cons_self c rest, hcc⟩
        · rcases ih hrest rq h1 with ⟨cell, hc1, hc2⟩
          exact ⟨cell, List.mem_cons_of_mem c hc1, hc2⟩

theorem cleanQuoteMap_mem {T : Nat} {asii : Bool} :
    ∀ {qm : QuoteMap} {cleaned : List (Nat × List RouteQuote)},
      cleanQuoteMap T asii qm = .ok cleaned →
      ∀ pr ∈ cleaned, ∃ row, (pr.1, row) ∈ qm ∧ cleanRow T asii row = .ok pr.2 := by
  intro qm
  induction qm with
  | nil =>
    intro cleaned h pr hpr
    simp only [cleanQuoteMap, Except.ok.injEq] at h
    subst h
    simp at hpr
  | cons pr0 rest ih =>
    obtain ⟨p, row⟩ := pr0
    intro cleaned h pr hpr
    simp only [cleanQuoteMap] at h
    split at h
    · simp at h
    · rename_i crow hrow
      split at h
      · simp at h
      · rename_i crest hrest
        simp only [Except.ok.injEq] at h
        subst h
        rcases List.mem_cons.mp hpr with h1 | h1
        · subst h1
          exact ⟨row, List.mem_cons_self (p, row) rest, hrow⟩
        · rcases ih hrest pr h1 with ⟨row1, hr1, hr2⟩
          exact ⟨row1, List.mem_cons_of_mem (p, row) hr1, hr2⟩

/-! ## C1 -/

/-- C1 counterexample: running the router pipeline on one single-hop route
between mints `"A"` and `"B"`, trade amount 10, input-specified, percent
increment 50, the cleaned quote map's entry at percent 50 has top-level
`amountIn = 10` (the full trade amount, as `cleanQuoteMap` writes it) while
its first (and only) hop has `amountIn = 5` (the 50% amount) — so the
claimed invariant `hops[0].amountIn == routeQuote.amountIn` fails for a
percent other than 100. -/
theorem c1_counterexample :
    ((cleanQuoteMap 10 true
          (routerQuoteMap cexEnv "A" "B" 10 true [["P"]] cexPools 50)).toOption.getD []).map
        (fun pr => (pr.1, pr.2.map fun rq => (rq.amountIn, rq.calculatedHops.map (·.amountIn))))
      = [(50, [(10, [5])]), (100, [(10, [10])])] ∧ (10 : Nat) ≠ 5 := by
  constructor
  · rfl
  · decide

/-- C1 (amended): for every RouteQuote emitted by `cleanQuoteMap` inside
`findBestRoutes`, the boundary hop on the *non-specified* side matches the
top-level amount — when the input amount is specified,
`hops[k-1].amountOut == routeQuote.amountOut` and `routeQuote.amountIn` is
the full `tradeAmount` (so `hops[0].amountIn == routeQuote.amountIn` only
when the percent amount equals the trade amount, e.g. at 100%); when the
output amount is specified, `hops[0].amountIn == routeQuote.amountIn` and
`routeQuote.amountOut` is the full `tradeAmount`. -/
theorem c1_amended (env : RouterEnv) (inM outM : String) (T : Nat) (asii : Bool)
    (pairRoutes : List (List String)) (pools : String → Option TokenPairPool) (pInc : Nat)
    (cleaned : List (Nat × List RouteQuote))
    (h : cleanQuoteMap T asii (routerQuoteMap env inM outM T asii pairRoutes pools pInc) =
      .ok cleaned) :
    ∀ pr ∈ cleaned, ∀ rq ∈ pr.2,
      (asii = true → rq.amountIn = T ∧
        rq.calculatedHops.getLast?.map (·.amountOut) = some rq.amountOut) ∧
      (asii = false → rq.amountOut = T ∧
        rq.calculatedHops.head?.map (·.amountIn) = some rq.amountIn) := by
  intro pr hpr rq hrq
  obtain ⟨row, hrow, hcr⟩ := cleanQuoteMap_mem h pr hpr
  obtain ⟨cell, hcell, hcc⟩ := cleanRow_mem hcr rq hrq
  obtain ⟨c, bh, rfl, hguard, hbh, _, _, hrqH, hrqIn, hrqOut⟩ := cleanCell_ok_some hcc
  have hinv := routerQuoteMap_qmInv env inM outM T asii pairRoutes pools pInc
  have hcOk : cellOk asii c := hinv.2.1 (pr.1, row) hrow c hcell
  have hlen : (c.calculatedHops.filterMap id).length = c.calculatedHops.length := by
    rw [hguard, hcOk.1]
  constructor
  · rintro rfl
    refine ⟨hrqIn, ?_⟩
    have hbh2 : c.calculatedHops.getLast?.join = some bh := hbh
    have hOut : rq.amountOut = bh.amountOut := hrqOut
    rw [hrqH, ← getLast?_join_of_all_some hlen, hbh2, hOut]
    rfl
  · rintro rfl
    refine ⟨hrqOut, ?_⟩
    have hbh2 : c.calculatedHops.head?.join = some bh := hbh
    have hIn : rq.amountIn = bh.amountIn := hrqIn
    rw [hrqH, ← head?_join_of_all_some hlen, hbh2, hIn]
    rfl

/-! ## C3, C4, C5, C7: liquidity quotes -/

theorem getTokenEstimates_isSome (env : LiqEnv)
    (prms : IncreaseLiquidityQuoteByLiquidityParam) (h : prms.liquidity ≠ 0) :
    ∃ ab, getTokenEstimatesFromLiquidity env prms = some ab := by
  simp only [getTokenEstimatesFromLiquidity, if_neg h]
  split_ifs <;> exact ⟨_, rfl⟩

/-- C3: the code disagrees with the spec's classification boundary.  At
`tickCurrentIndex = tickUpperIndex` (range `[0, 64]`, current tick 64 with
the matching sqrt price, 1000 of token A in), `getLiquidityFromInputToken`
takes its in-range branch and throws (BN division by the zero denominator
`√P_upper − √P_current`, modelled as `none`) instead of classifying the
position Above and returning zero liquidity; the whole price-slippage quote
propagates the error.  At `tickCurrentIndex = 65` (strictly above) it does
return zero.  `getTokenEstimatesFromLiquidity` in the same file treats
`tickCurrentIndex = tickUpperIndex` as above range (token-A estimate 0),
matching the spec — the two halves of the same quote disagree. -/
theorem c3_upper_boundary :
    getLiquidityFromInputToken toyLiqEnv c3param = none ∧
    increaseLiquidityQuoteByInputTokenWithParams_PriceSlippage toyLiqEnv c3param = none ∧
    getLiquidityFromInputToken toyLiqEnv { c3param with tickCurrentIndex := 65 } = some 0 ∧
    (getTokenEstimatesFromLiquidity toyLiqEnv
      { liquidity := 5, tickCurrentIndex := 64, sqrtPrice := toyTickIndexToSqrtPriceX64 64,
        tickLowerIndex := 0, tickUpperIndex := 64, slippage := ⟨0, 100⟩ }).map Prod.fst =
      some 0 := by
  refine ⟨?_, ?_, ?_, ?_⟩ <;> rfl

/-- C4: for every quote returned by
`increaseLiquidityQuoteByLiquidityWithParams` with nonzero liquidity,
`tokenMaxA` (resp. `tokenMaxB`) is the maximum of the token-A (resp. token-B)
estimates at the current sqrt price and at the two slippage-bound sqrt
prices; consequently `tokenMaxA ≥ tokenEstA` and `tokenMaxB ≥ tokenEstB`. -/
theorem c4_slippage_envelope (env : LiqEnv)
    (params : IncreaseLiquidityQuoteByLiquidityParam) (q : IncreaseLiquidityQuote)
    (hl : params.liquidity ≠ 0)
    (h : increaseLiquidityQuoteByLiquidityWithParams env params = some q) :
    q.tokenMaxA =
      max (max q.tokenEstA
        ((getTokenEstimatesFromLiquidity env
          { params with
            sqrtPrice := (env.getSlippageBoundForSqrtPrice params.sqrtPrice params.slippage).1.1
            tickCurrentIndex :=
              (env.getSlippageBoundForSqrtPrice params.sqrtPrice params.slippage).1.2 }).getD
          (0, 0)).1)
        ((getTokenEstimatesFromLiquidity env
          { params with
            sqrtPrice := (env.getSlippageBoundForSqrtPrice params.sqrtPrice params.slippage).2.1
            tickCurrentIndex :=
              (env.getSlippageBoundForSqrtPrice params.sqrtPrice params.slippage).2.2 }).getD
          (0, 0)).1 ∧
    q.tokenMaxB =
      max (max q.tokenEstB
        ((getTokenEstimatesFromLiquidity env
          { params with
            sqrtPrice := (env.getSlippageBoundForSqrtPrice params.sqrtPrice params.slippage).1.1
            tickCurrentIndex :=
              (env.getSlippageBoundForSqrtPrice params.sqrtPrice params.slippage).1.2 }).getD
          (0, 0)).2)
        ((getTokenEstimatesFromLiquidity env
          { params with
            sqrtPrice := (env.getSlippageBoundForSqrtPrice params.sqrtPrice params.slippage).2.1
            tickCurrentIndex :=
              (env.getSlippageBoundForSqrtPrice params.sqrtPrice params.slippage).2.2 }).getD
          (0, 0)).2 ∧
    q.tokenEstA ≤ q.tokenMaxA ∧ q.tokenEstB ≤ q.tokenMaxB := by
  obtain ⟨⟨estA, estB⟩, hab⟩ := getTokenEstimates_isSome env params hl
  obtain ⟨⟨aL, bL⟩, habL⟩ := getTokenEstimates_isSome env
    { params with
      sqrtPrice := (env.getSlippageBoundForSqrtPrice params.sqrtPrice params.slippage).1.1
      tickCurrentIndex :=
        (env.getSlippageBoundForSqrtPrice params.sqrtPrice params.slippage).1.2 } hl
  obtain ⟨⟨aU, bU⟩, habU⟩ := getTokenEstimates_isSome env
    { params with
      sqrtPrice := (env.getSlippageBoundForSqrtPrice params.sqrtPrice params.slippage).2.1
      tickCurrentIndex :=
        (env.getSlippageBoundForSqrtPrice params.sqrtPrice params.slippage).2.2 } hl
  simp only [increaseLiquidityQuoteByLiquidityWithParams, if_neg hl] at h
  rw [hab, habL, habU] at h
  simp only [Option.some.injEq] at h
  subst h
  rw [habL, habU]
  refine ⟨?_, ?_, ?_, ?_⟩
  · simp
  · simp
  · exact le_trans (le_max_left estA aL) (le_max_left _ aU)
  · exact le_trans (le_max_left estB bL) (le_max_left _ bU)

/-- C5: with valid ticks and a matching input mint, a zero input amount, a
computed liquidity of zero, or a zero liquidity argument each yield the
all-zero quote (`tokenMaxA = tokenMaxB = liquidityAmount = tokenEstA =
tokenEstB = 0`) and no error. -/
theorem c5_zero_quote (env : LiqEnv) (param : IncreaseLiquidityQuoteParam)
    (lp : IncreaseLiquidityQuoteByLiquidityParam)
    (hlo : checkTickInBounds param.tickLowerIndex = true)
    (hhi : checkTickInBounds param.tickUpperIndex = true)
    (hmint : param.inputTokenMint = param.tokenMintA ∨
      param.inputTokenMint = param.tokenMintB) :
    (param.inputTokenAmount = 0 →
      increaseLiquidityQuoteByInputTokenWithParams_PriceSlippage env param =
        some zeroLiquidityQuote) ∧
    (getLiquidityFromInputToken env param = some 0 →
      increaseLiquidityQuoteByInputTokenWithParams_PriceSlippage env param =
        some zeroLiquidityQuote) ∧
    (lp.liquidity = 0 →
      increaseLiquidityQuoteByLiquidityWithParams env lp = some zeroLiquidityQuote) := by
  have key : getLiquidityFromInputToken env param = some 0 →
      increaseLiquidityQuoteByInputTokenWithParams_PriceSlippage env param =
        some zeroLiquidityQuote := by
    intro hliq
    unfold increaseLiquidityQuoteByInputTokenWithParams_PriceSlippage
    rw [if_neg (by simp [hlo]), if_neg (by simp [hhi]), if_neg (not_not_intro hmint)]
    rw [hliq]
    rfl
  refine ⟨?_, key, ?_⟩
  · intro h0
    refine key ?_
    unfold getLiquidityFromInputToken
    rw [if_pos h0]
  · intro h0
    unfold increaseLiquidityQuoteByLiquidityWithParams
    rw [if_pos h0]

/-- C7: in the legacy quote path, when the strict position status is below
range and the input token is token B, or above range and the input token is
token A (distinct pool mints), the quote's `liquidityAmount`, `tokenEstA`
and `tokenEstB` are all zero. -/
theorem c7_legacy_zero (env : LiqEnv) (param : IncreaseLiquidityQuoteParam)
    (q : IncreaseLiquidityQuote) (hAB : param.tokenMintA ≠ param.tokenMintB)
    (h : increaseLiquidityQuoteByInputTokenWithParams env param = some q)
    (hcase :
      (getStrictPositionStatus env param.sqrtPrice param.tickLowerIndex param.tickUpperIndex =
          .BelowRange ∧ param.inputTokenMint = param.tokenMintB) ∨
      (getStrictPositionStatus env param.sqrtPrice param.tickLowerIndex param.tickUpperIndex =
          .AboveRange ∧ param.inputTokenMint = param.tokenMintA)) :
    q.liquidityAmount = 0 ∧ q.tokenEstA = 0 ∧ q.tokenEstB = 0 := by
  unfold increaseLiquidityQuoteByInputTokenWithParams at h
  split at h
  · exact absurd h (by simp)
  split at h
  · exact absurd h (by simp)
  split at h
  · exact absurd h (by simp)
  rcases hcase with ⟨hst, hmB⟩ | ⟨hst, hmA⟩
  · rw [hst] at h
    have hne : ¬ (param.tokenMintA = param.inputTokenMint) := by
      rw [hmB]
      exact fun hh => hAB hh
    have hq : getQuotePositionBelowRange env param = some (0, 0, 0) := by
      unfold getQuotePositionBelowRange
      rw [if_pos hne]
    rw [hq] at h
    simp only [Option.some.injEq] at h
    subst h
    exact ⟨rfl, rfl, rfl⟩
  · rw [hst] at h
    have hne : ¬ (param.tokenMintB = param.inputTokenMint) := by
      rw [hmA]
      exact fun hh => hAB hh.symm
    have hq : getQuotePositionAboveRange env param = some (0, 0, 0) := by
      unfold getQuotePositionAboveRange
      rw [if_pos hne]
    rw [hq] at h
    simp only [Option.some.injEq] at h
    subst h
    exact ⟨rfl, rfl, rfl⟩

/-! ## C6, C9 -/

/-- C6: `generatePercentageAmounts` with trade amount `T` and a positive
increment `p` produces, for each `i` from 1 to `⌊100/p⌋`, the percent `i·p`
and the amount `⌊T·(i·p)/100⌋`, with both lists of length exactly `⌊100/p⌋`
and aligned index by index (`i = idx + 1` at 0-based index `idx`). -/
theorem c6_generatePercentageAmounts (T p : Nat) (_hp : 0 < p) :
    (generatePercentageAmounts T p).1.length = 100 / p ∧
    (generatePercentageAmounts T p).2.length = 100 / p ∧
    ∀ i < 100 / p,
      (generatePercentageAmounts T p).1.getD i 0 = (i + 1) * p ∧
      (generatePercentageAmounts T p).2.getD i 0 = T * ((i + 1) * p) / 100 := by
  refine ⟨by simp [generatePercentageAmounts], by simp [generatePercentageAmounts], ?_⟩
  intro i hi
  constructor <;>
    simp [generatePercentageAmounts, List.getD_eq_getElem?_getD, List.getElem?_map,
      List.getElem?_range hi]

/-- C9: `findBestRoutes` returns the empty list, for every quoting
environment (so without consulting the quoter at all) and without an error,
whenever the walks mapping has no entry for the canonical route id of the
token pair or the trade amount is zero. -/
theorem c9_early_return (env : RouterEnv) (inM outM : String) (T : Nat) (asii : Bool)
    (walks : List ((String × String) × List (List String)))
    (pools : String → Option TokenPairPool) (opts : RoutingOptions)
    (h : walks.lookup (getRouteId inM outM) = none ∨ T = 0) :
    findBestRoutesE env inM outM T asii walks pools opts = .ok [] := by
  unfold findBestRoutesE
  rcases h with h | h
  · rw [h]
  · cases hw : walks.lookup (getRouteId inM outM) with
    | none => rfl
    | some pairRoutes => simp [h]

/-! ## C10: zero slippage -/

theorem updateQuoteMapStep_congr {e1 e2 : RouterEnv}
    (hswap : ∀ p, e1.swapQuoteWithParams p (Percentage.fromFraction 0 1000) =
      e2.swapQuoteWithParams p (Percentage.fromFraction 0 1000))
    (qm : QuoteMap) (x : QuoteUpdate × SwapQuoteParam) :
    updateQuoteMapStep e1 qm x = updateQuoteMapStep e2 qm x := by
  obtain ⟨u, param⟩ := x
  simp only [updateQuoteMapStep, hswap param]

theorem updateQuoteMap_congr {e1 e2 : RouterEnv}
    (hswap : ∀ p, e1.swapQuoteWithParams p (Percentage.fromFraction 0 1000) =
      e2.swapQuoteWithParams p (Percentage.fromFraction 0 1000))
    (updates : List QuoteUpdate) (params : List SwapQuoteParam) (qm : QuoteMap) :
    updateQuoteMap e1 updates params qm = updateQuoteMap e2 updates params qm := by
  unfold updateQuoteMap
  congr 1
  funext qm' x
  exact updateQuoteMapStep_congr hswap qm' x

theorem routerHopStep_congr {e1 e2 : RouterEnv} (hpool : e1.poolData = e2.poolData)
    (hswap : ∀ p, e1.swapQuoteWithParams p (Percentage.fromFraction 0 1000) =
      e2.swapQuoteWithParams p (Percentage.fromFraction 0 1000))
    (inM outM : String) (pools : String → Option TokenPairPool)
    (pairRoutes : List (List String)) (pa : List (Nat × Nat)) (asii : Bool)
    (qm : QuoteMap) (hop : Nat) :
    routerHopStep e1 inM outM pools pairRoutes pa asii qm hop =
      routerHopStep e2 inM outM pools pairRoutes pa asii qm hop := by
  unfold routerHopStep batchSwapQuoteByToken
  rw [hpool]
  exact updateQuoteMap_congr hswap _ _ _

theorem routerQuoteMap_congr {e1 e2 : RouterEnv} (hpool : e1.poolData = e2.poolData)
    (hswap : ∀ p, e1.swapQuoteWithParams p (Percentage.fromFraction 0 1000) =
      e2.swapQuoteWithParams p (Percentage.fromFraction 0 1000))
    (inM outM : String) (T : Nat) (asii : Bool) (pairRoutes : List (List String))
    (pools : String → Option TokenPairPool) (pInc : Nat) :
    routerQuoteMap e1 inM outM T asii pairRoutes pools pInc =
      routerQuoteMap e2 inM outM T asii pairRoutes pools pInc := by
  simp only [routerQuoteMap]
  congr 1
  funext qm hop
  exact routerHopStep_congr hpool hswap inM outM pools pairRoutes _ asii qm hop

/-- C10: (i) the result of `findBestRoutes` depends on the swap quoter only
through its value at slippage exactly `0/1000` (every per-hop quote is
evaluated at `Percentage.fromFraction(0, 1000)`); (ii) every hop recorded in
the quote map stores the quote's `otherAmountThreshold` as its non-specified
amount (`amountOut` when the input is specified, `amountIn` otherwise);
(iii) per the spec's threshold formula, at zero slippage the threshold
coincides with the unslipped estimate. -/
theorem c10_zero_slippage :
    (∀ (e1 e2 : RouterEnv) (inM outM : String) (T : Nat) (asii : Bool)
        (walks : List ((String × String) × List (List String)))
        (pools : String → Option TokenPairPool) (opts : RoutingOptions),
      e1.poolData = e2.poolData →
      e1.getRankedRouteSets = e2.getRankedRouteSets →
      (∀ p, e1.swapQuoteWithParams p (Percentage.fromFraction 0 1000) =
        e2.swapQuoteWithParams p (Percentage.fromFraction 0 1000)) →
      findBestRoutesE e1 inM outM T asii walks pools opts =
        findBestRoutesE e2 inM outM T asii walks pools opts) ∧
    (∀ (env : RouterEnv) (inM outM : String) (T : Nat) (asii : Bool)
        (pairRoutes : List (List String)) (pools : String → Option TokenPairPool)
        (pInc : Nat),
      ∀ pr ∈ routerQuoteMap env inM outM T asii pairRoutes pools pInc,
        ∀ c, some c ∈ pr.2 → ∀ h, some h ∈ c.calculatedHops →
          (if asii then h.amountOut else h.amountIn) = h.quote.otherAmountThreshold) ∧
    (∀ (estIn estOut : Nat) (b : Bool),
      otherAmountThreshold_spec (Percentage.fromFraction 0 1000) estIn estOut b =
        if b then estOut else estIn) := by
  refine ⟨?_, ?_, ?_⟩
  · intro e1 e2 inM outM T asii walks pools opts hpool hrank hswap
    unfold findBestRoutesE
    cases walks.lookup (getRouteId inM outM) with
    | none => rfl
    | some pairRoutes =>
      simp only
      rw [routerQuoteMap_congr hpool hswap, hrank]
  · intro env inM outM T asii pairRoutes pools pInc pr hpr c hc h hh
    have hinv := routerQuoteMap_qmInv env inM outM T asii pairRoutes pools pInc
    exact (hinv.2.1 pr hpr c hc).2 h hh
  · intro estIn estOut b
    unfold otherAmountThreshold_spec Percentage.fromFraction
    cases b
    · simp only [if_neg Bool.false_ne_true]
      show (estIn * (1000 + 0) + (1000 - 1)) / 1000 = estIn
      rw [Nat.add_zero]
      omega
    · simp only [if_pos rfl]
      show estOut * (1000 - 0) / 1000 = estOut
      rw [Nat.sub_zero]
      exact Nat.mul_div_cancel estOut (by norm_num)

/-! ## C8: single-hop 100% baselines -/

/-- C8: whenever `findBestRoutes` returns a list, it contains — for every
single-hop route quote present at the 100% level of the *cleaned*
(pre-pruning) quote map — a `SplitResult` with exactly that one RouteQuote,
percent 100, `totalIn` the hop's `amountIn` and `totalOut` the hop's
`amountOut`, regardless of the ranker and of the pruning width; and the
returned list is sorted by the optimisation objective (the spec-modelled
comparator `routeSetLe`). -/
theorem c8_single_hop_baseline (env : RouterEnv) (inM outM : String) (T : Nat) (asii : Bool)
    (walks : List ((String × String) × List (List String)))
    (pools : String → Option TokenPairPool) (opts : RoutingOptions)
    (pairRoutes : List (List String)) (l : List SplitResult)
    (cleaned : List (Nat × List RouteQuote))
    (hw : walks.lookup (getRouteId inM outM) = some pairRoutes)
    (hT : ¬ T = 0) (hne : pairRoutes.isEmpty = false)
    (hclean : cleanQuoteMap T asii
      (routerQuoteMap env inM outM T asii pairRoutes pools opts.percentIncrement) =
        .ok cleaned)
    (hres : findBestRoutesE env inM outM T asii walks pools opts = .ok l) :
    (∀ rq ∈ (cleaned.lookup 100).getD [], ∀ h : CalculatedHop, rq.calculatedHops = [h] →
      ({ quotes := [rq], percent := 100, totalIn := h.amountIn, totalOut := h.amountOut } :
        SplitResult) ∈ l) ∧
    List.Sorted (fun a b => routeSetLe asii a b = true) l := by
  unfold findBestRoutesE at hres
  split at hres
  · rename_i heq
    rw [hw] at heq
    exact absurd heq (by simp)
  · rename_i pr0 heq
    rw [hw] at heq
    obtain rfl : pr0 = pairRoutes := by injection heq with h1; exact h1.symm
    rw [if_neg hT, if_neg (by simp [hne])] at hres
    split at hres
    · rename_i e heq2
      rw [hclean] at heq2
      exact absurd heq2 (by simp)
    · rename_i cleaned0 heq2
      rw [hclean] at heq2
      have hcc : cleaned = cleaned0 := by injection heq2
      rw [← hcc] at hres
      simp only [Except.ok.injEq] at hres
      subst hres
      constructor
      · intro rq hrq h hh
        rw [List.mem_mergeSort]
        refine List.mem_append.mpr (Or.inr ?_)
        unfold getSingleHopSplit
        cases hl100 : cleaned.lookup 100 with
        | none => rw [hl100] at hrq; simp at hrq
        | some fullFlow =>
          rw [hl100] at hrq
          simp only [Option.getD_some] at hrq
          refine List.mem_map.mpr ⟨rq, List.mem_filter.mpr ⟨hrq, by simp [hh]⟩, ?_⟩
          rw [hh]
          rfl
      · have htrans : ∀ a b c : SplitResult, routeSetLe asii a b = true →
            routeSetLe asii b c = true → routeSetLe asii a c = true := by
          intro a b c h1 h2
          unfold routeSetLe at *
          cases asii <;> simp_all <;> omega
        have htotal : ∀ a b : SplitResult,
            (routeSetLe asii a b || routeSetLe asii b a) = true := by
          intro a b
          unfold routeSetLe
          cases asii <;> simp <;> omega
        exact List.sorted_mergeSort htrans htotal _

/-! ## C2: quote failures only drop entries -/

theorem qmShape_buildCellStep {n : Nat} {acc : QuoteMap × List QuoteUpdate}
    (h : qmShape n acc.1) (inM outM : String) (pools : String → Option TokenPairPool)
    (percent tradeAmount hop : Nat) (asii : Bool) (i : Nat) (route : List String) :
    qmShape n (buildCellStep inM outM pools percent tradeAmount hop asii i route acc).1 := by
  rcases buildCellStep_fst inM outM pools percent tradeAmount hop asii i route acc
    with h1 | h1 <;> rw [h1]
  · exact h
  · exact qmShape_setCell h percent i _

theorem filledAt_buildCellStep {pq iq : Nat} {acc : QuoteMap × List QuoteUpdate}
    (h : filledAt acc.1 pq iq) (inM outM : String) (pools : String → Option TokenPairPool)
    (percent tradeAmount hop : Nat) (asii : Bool) (i : Nat) (route : List String) :
    filledAt (buildCellStep inM outM pools percent tradeAmount hop asii i route acc).1 pq iq := by
  rcases buildCellStep_fst inM outM pools percent tradeAmount hop asii i route acc
    with h1 | h1 <;> rw [h1]
  · exact h
  · exact filledAt_setCell_some h percent i _

theorem lookup_isSome_setCell {qm : QuoteMap} {k : Nat} (h : (qm.lookup k).isSome)
    (p i : Nat) (c : Option PartialRouteQuote) : ((setCell qm p i c).lookup k).isSome := by
  rw [lookup_setCell]
  obtain ⟨v, hv⟩ := Option.isSome_iff_exists.mp h
  rw [hv]
  rfl

theorem lookup_isSome_buildCellStep {k : Nat} {acc : QuoteMap × List QuoteUpdate}
    (h : (acc.1.lookup k).isSome) (inM outM : String) (pools : String → Option TokenPairPool)
    (percent tradeAmount hop : Nat) (asii : Bool) (i : Nat) (route : List String) :
    (((buildCellStep inM outM pools percent tradeAmount hop asii i route acc).1).lookup
      k).isSome := by
  rcases buildCellStep_fst inM outM pools percent tradeAmount hop asii i route acc
    with h1 | h1 <;> rw [h1]
  · exact h
  · exact lookup_isSome_setCell h percent i _

theorem qmShape_setCellHop {n : Nat} {qm : QuoteMap} (h : qmShape n qm)
    (p i hopIdx : Nat) (hrec : CalculatedHop) : qmShape n (setCellHop qm p i hopIdx hrec) := by
  unfold setCellHop
  cases getCell qm p i with
  | none => exact h
  | some c => exact qmShape_setCell h p i _

theorem filledAt_setCellHop {pq iq : Nat} {qm : QuoteMap} (h : filledAt qm pq iq)
    (p i hopIdx : Nat) (hrec : CalculatedHop) : filledAt (setCellHop qm p i hopIdx hrec) pq iq := by
  unfold setCellHop
  cases getCell qm p i with
  | none => exact h
  | some c => exact filledAt_setCell_some h p i _

theorem qmShape_updateQuoteMapStep {n : Nat} {qm : QuoteMap} (h : qmShape n qm)
    (env : RouterEnv) (x : QuoteUpdate × SwapQuoteParam) :
    qmShape n (updateQuoteMapStep env qm x) := by
  obtain ⟨u, param⟩ := x
  simp only [updateQuoteMapStep]
  split
  · exact h
  · exact qmShape_setCellHop h _ _ _ _

theorem filledAt_updateQuoteMapStep {pq iq : Nat} {qm : QuoteMap} (h : filledAt qm pq iq)
    (env : RouterEnv) (x : QuoteUpdate × SwapQuoteParam) :
    filledAt (updateQuoteMapStep env qm x) pq iq := by
  obtain ⟨u, param⟩ := x
  simp only [updateQuoteMapStep]
  split
  · exact h
  · exact filledAt_setCellHop h _ _ _ _

theorem buildCellStep_fst_start {asii : Bool} {route : List String} (hroute : route ≠ [])
    (inM outM : String) (pools : String → Option TokenPairPool)
    (percent tradeAmount : Nat) (i : Nat) (acc : QuoteMap × List QuoteUpdate) :
    (buildCellStep inM outM pools percent tradeAmount (startingHopFor asii route) asii i route
      acc).1 = setCell acc.1 percent i (some (freshCell percent route)) := by
  have hlen : 0 < route.length := List.length_pos.mpr hroute
  cases asii <;>
    simp only [buildCellStep, startingHopFor, freshCell] <;>
    split_ifs <;>
    first
    | rfl
    | omega
    | simp_all

theorem qmShape_buildOuterStep {pairRoutes : List (List String)} {inM outM : String}
    {pools : String → Option TokenPairPool} {hop : Nat} {asii : Bool}
    {acc : QuoteMap × List QuoteUpdate} {pa0 : Nat × Nat}
    (hacc : qmShape pairRoutes.length acc.1) :
    qmShape pairRoutes.length
      (pairRoutes.enum.foldl
        (fun acc2 ir => buildCellStep inM outM pools pa0.1 pa0.2 hop asii ir.1 ir.2 acc2)
        (initRow acc.1 pa0.1 pairRoutes.length, acc.2)).1 := by
  refine foldl_rec
    (P := fun (acc2 : QuoteMap × List QuoteUpdate) => qmShape pairRoutes.length acc2.1) ?_
    (qmShape_initRow hacc pa0.1)
  intro acc2 ir _ hacc2
  exact qmShape_buildCellStep hacc2 _ _ _ _ _ _ _ _ _

theorem filledAt_buildOuterStep {pairRoutes : List (List String)} {inM outM : String}
    {pools : String → Option TokenPairPool} {hop : Nat} {asii : Bool}
    {acc : QuoteMap × List QuoteUpdate} {pa0 : Nat × Nat} {pq iq : Nat}
    (hacc : filledAt acc.1 pq iq) :
    filledAt
      (pairRoutes.enum.foldl
        (fun acc2 ir => buildCellStep inM outM pools pa0.1 pa0.2 hop asii ir.1 ir.2 acc2)
        (initRow acc.1 pa0.1 pairRoutes.length, acc.2)).1 pq iq := by
  refine foldl_rec
    (P := fun (acc2 : QuoteMap × List QuoteUpdate) => filledAt acc2.1 pq iq) ?_
    (filledAt_initRow hacc pa0.1 pairRoutes.length)
  intro acc2 ir _ hacc2
  exact filledAt_buildCellStep hacc2 _ _ _ _ _ _ _ _ _

theorem rowSome_buildOuterStep {pairRoutes : List (List String)} {inM outM : String}
    {pools : String → Option TokenPairPool} {hop : Nat} {asii : Bool}
    {acc : QuoteMap × List QuoteUpdate} {pa0 : Nat × Nat} {k : Nat}
    (hacc : (acc.1.lookup k).isSome) :
    ((pairRoutes.enum.foldl
        (fun acc2 ir => buildCellStep inM outM pools pa0.1 pa0.2 hop asii ir.1 ir.2 acc2)
        (initRow acc.1 pa0.1 pairRoutes.length, acc.2)).1.lookup k).isSome := by
  refine foldl_rec
    (P := fun (acc2 : QuoteMap × List QuoteUpdate) => ((acc2.1.lookup k).isSome : Prop)) ?_
    (by
      show ((initRow acc.1 pa0.1 pairRoutes.length).lookup k).isSome
      rw [lookup_initRow_of_isSome hacc]
      exact hacc)
  intro acc2 ir _ hacc2
  exact lookup_isSome_buildCellStep hacc2 _ _ _ _ _ _ _ _ _

theorem qmShape_buildQuoteUpdateRequests {pairRoutes : List (List String)} {qm : QuoteMap}
    (h : qmShape pairRoutes.length qm) (inM outM : String)
    (pools : String → Option TokenPairPool) (pa : List (Nat × Nat)) (hop : Nat)
    (asii : Bool) :
    qmShape pairRoutes.length
      (buildQuoteUpdateRequests inM outM pools pairRoutes pa hop asii qm).1 := by
  unfold buildQuoteUpdateRequests
  refine foldl_rec
    (P := fun (acc : QuoteMap × List QuoteUpdate) => qmShape pairRoutes.length acc.1) ?_ h
  intro acc pa0 _ hacc
  exact qmShape_buildOuterStep hacc

theorem filledAt_buildQuoteUpdateRequests {pq iq : Nat} {pairRoutes : List (List String)}
    {qm : QuoteMap} (h : filledAt qm pq iq) (inM outM : String)
    (pools : String → Option TokenPairPool) (pa : List (Nat × Nat)) (hop : Nat)
    (asii : Bool) :
    filledAt (buildQuoteUpdateRequests inM outM pools pairRoutes pa hop asii qm).1 pq iq := by
  unfold buildQuoteUpdateRequests
  refine foldl_rec
    (P := fun (acc : QuoteMap × List QuoteUpdate) => filledAt acc.1 pq iq) ?_ h
  intro acc pa0 _ hacc
  exact filledAt_buildOuterStep hacc

theorem filledAt_updateQuoteMap {pq iq : Nat} {qm : QuoteMap} (h : filledAt qm pq iq)
    (env : RouterEnv) (updates : List QuoteUpdate) (params : List SwapQuoteParam) :
    filledAt (updateQuoteMap env updates params qm) pq iq := by
  unfold updateQuoteMap
  refine foldl_rec (P := fun qm' => filledAt qm' pq iq) ?_ h
  intro qm' x _ hq
  exact filledAt_updateQuoteMapStep hq env x

theorem qmShape_updateQuoteMap {n : Nat} {qm : QuoteMap} (h : qmShape n qm)
    (env : RouterEnv) (updates : List QuoteUpdate) (params : List SwapQuoteParam) :
    qmShape n (updateQuoteMap env updates params qm) := by
  unfold updateQuoteMap
  refine foldl_rec (P := fun qm' => qmShape n qm') ?_ h
  intro qm' x _ hq
  exact qmShape_updateQuoteMapStep hq env x

theorem qmShape_routerHopStep {pairRoutes : List (List String)} {qm : QuoteMap}
    (h : qmShape pairRoutes.length qm) (env : RouterEnv) (inM outM : String)
    (pools : String → Option TokenPairPool) (pa : List (Nat × Nat)) (asii : Bool)
    (hop : Nat) :
    qmShape pairRoutes.length (routerHopStep env inM outM pools pairRoutes pa asii qm hop) := by
  unfold routerHopStep
  exact qmShape_updateQuoteMap (qmShape_buildQuoteUpdateRequests h inM outM pools pa hop asii)
    env _ _

theorem filledAt_routerHopStep {pq iq : Nat} {pairRoutes : List (List String)}
    {qm : QuoteMap} (h : filledAt qm pq iq) (env : RouterEnv) (inM outM : String)
    (pools : String → Option TokenPairPool) (pa : List (Nat × Nat)) (asii : Bool)
    (hop : Nat) :
    filledAt (routerHopStep env inM outM pools pairRoutes pa asii qm hop) pq iq := by
  unfold routerHopStep
  exact filledAt_updateQuoteMap (filledAt_buildQuoteUpdateRequests h inM outM pools pa hop asii)
    env _ _

theorem foldl_max_le_init : ∀ (l : List Nat) (a b : Nat), a ≤ b → a ≤ l.foldl Nat.max b
  | [], _, _, h => h
  | x :: t, a, b, h =>
    foldl_max_le_init t a (Nat.max b x) (le_trans h (Nat.le_max_left b x))

theorem mem_le_foldl_max : ∀ (l : List Nat) (b a : Nat), a ∈ l → a ≤ l.foldl Nat.max b := by
  intro l
  induction l with
  | nil => intro b a ha; simp at ha
  | cons x t ih =>
    intro b a ha
    rw [List.foldl_cons]
    rcases List.mem_cons.mp ha with h1 | h1
    · subst h1
      exact foldl_max_le_init t a (Nat.max b a) (Nat.le_max_right b a)
    · exact ih (Nat.max b x) a h1

theorem enum_index_lt {α : Type _} {l : List α} {i : Nat} {x : α}
    (h : (i, x) ∈ l.enum) : i < l.length := by
  rw [List.enum_eq_zip_range] at h
  have := (List.of_mem_zip (by exact h)).1
  simpa using this

theorem buildOuterStep_fill {asii : Bool} {pairRoutes : List (List String)}
    {route : List String} (hroute : route ≠ []) {i : Nat}
    (hi : (i, route) ∈ pairRoutes.enum) (inM outM : String)
    (pools : String → Option TokenPairPool) {p : Nat} (amt : Nat)
    {acc : QuoteMap × List QuoteUpdate} (hshape : qmShape pairRoutes.length acc.1) :
    filledAt
      (pairRoutes.enum.foldl
        (fun acc2 ir =>
          buildCellStep inM outM pools p amt (startingHopFor asii route) asii ir.1 ir.2 acc2)
        (initRow acc.1 p pairRoutes.length, acc.2)).1 p i := by
  have hil : i < pairRoutes.length := enum_index_lt hi
  obtain ⟨s2, t2, hst2⟩ := List.append_of_mem hi
  rw [hst2, List.foldl_append, List.foldl_cons]
  obtain ⟨mid2, hmid2⟩ : ∃ m, List.foldl
      (fun acc2 ir =>
        buildCellStep inM outM pools p amt (startingHopFor asii route) asii ir.1 ir.2 acc2)
      (initRow acc.1 p pairRoutes.length, acc.2) s2 = m := ⟨_, rfl⟩
  have hrow : (mid2.1.lookup p).isSome := by
    rw [← hmid2]
    refine foldl_rec
      (P := fun (acc2 : QuoteMap × List QuoteUpdate) => ((acc2.1.lookup p).isSome : Prop))
      ?_ ?_
    · intro acc2 ir _ hacc2
      exact lookup_isSome_buildCellStep hacc2 _ _ _ _ _ _ _ _ _
    · show ((initRow acc.1 p pairRoutes.length).lookup p).isSome
      exact lookup_initRow_self _ p pairRoutes.length
  have hs2 : qmShape pairRoutes.length mid2.1 := by
    rw [← hmid2]
    refine foldl_rec
      (P := fun (acc2 : QuoteMap × List QuoteUpdate) => qmShape pairRoutes.length acc2.1)
      ?_ ?_
    · intro acc2 ir _ hacc2
      exact qmShape_buildCellStep hacc2 _ _ _ _ _ _ _ _ _
    · show qmShape pairRoutes.length (initRow acc.1 p pairRoutes.length)
      exact qmShape_initRow hshape p
  rw [hmid2]
  refine foldl_rec
    (P := fun (acc2 : QuoteMap × List QuoteUpdate) => filledAt acc2.1 p i) ?_ ?_
  · intro acc2 ir _ hacc2
    exact filledAt_buildCellStep hacc2 _ _ _ _ _ _ _ _ _
  · obtain ⟨row, hrowEq⟩ := Option.isSome_iff_exists.mp hrow
    have hrowLen : row.length = pairRoutes.length := hs2 (p, row) (lookup_mem hrowEq)
    show filledAt
      (buildCellStep inM outM pools p amt (startingHopFor asii route) asii i route mid2).1
      p i
    rw [buildCellStep_fst_start hroute]
    unfold filledAt
    rw [getCell_setCell_self (i := i) hrowEq (by omega) (some (freshCell p route))]
    rfl

theorem build_fill {asii : Bool} {pairRoutes : List (List String)} {route : List String}
    (hroute : route ≠ []) {i : Nat} (hi : (i, route) ∈ pairRoutes.enum)
    {p : Nat} {amt : Nat} {pa : List (Nat × Nat)} (hpa : (p, amt) ∈ pa)
    (inM outM : String) (pools : String → Option TokenPairPool) {qm : QuoteMap}
    (hshape : qmShape pairRoutes.length qm) :
    filledAt (buildQuoteUpdateRequests inM outM pools pairRoutes pa
      (startingHopFor asii route) asii qm).1 p i := by
  unfold buildQuoteUpdateRequests
  obtain ⟨s, t, hst⟩ := List.append_of_mem hpa
  rw [hst, List.foldl_append, List.foldl_cons]
  refine foldl_rec
    (P := fun (acc : QuoteMap × List QuoteUpdate) => filledAt acc.1 p i) ?_ ?_
  · intro acc pa0 _ hacc
    exact filledAt_buildOuterStep hacc
  · have hs : qmShape pairRoutes.length (List.foldl
        (fun acc pa =>
          pairRoutes.enum.foldl
            (fun acc2 ir =>
              buildCellStep inM outM pools pa.1 pa.2 (startingHopFor asii route) asii ir.1
                ir.2 acc2)
            (initRow acc.1 pa.1 pairRoutes.length, acc.2))
        (qm, []) s).1 := by
      refine foldl_rec
        (P := fun (acc : QuoteMap × List QuoteUpdate) => qmShape pairRoutes.length acc.1)
        ?_ hshape
      intro acc pa0 _ hacc
      exact qmShape_buildOuterStep hacc
    exact buildOuterStep_fill hroute hi inM outM pools amt hs

theorem routerHopStep_fill {asii : Bool} {pairRoutes : List (List String)}
    {route : List String} (hroute : route ≠ []) {i : Nat}
    (hi : (i, route) ∈ pairRoutes.enum) {p amt : Nat} {pa : List (Nat × Nat)}
    (hpa : (p, amt) ∈ pa) (env : RouterEnv) (inM outM : String)
    (pools : String → Option TokenPairPool) {qm : QuoteMap}
    (hshape : qmShape pairRoutes.length qm) :
    filledAt
      (routerHopStep env inM outM pools pairRoutes pa asii qm (startingHopFor asii route))
      p i := by
  unfold routerHopStep
  exact filledAt_updateQuoteMap (build_fill hroute hi hpa inM outM pools hshape) env _ _

theorem routerQuoteMap_filled (env : RouterEnv) (inM outM : String) (T : Nat) (asii : Bool)
    {pairRoutes : List (List String)} (pools : String → Option TokenPairPool) (pInc : Nat)
    {route : List String} (hroute : route ≠ []) {i : Nat}
    (hi : (i, route) ∈ pairRoutes.enum) {p amt : Nat}
    (hpa : (p, amt) ∈
      (generatePercentageAmounts T pInc).1.zip (generatePercentageAmounts T pInc).2) :
    filledAt (routerQuoteMap env inM outM T asii pairRoutes pools pInc) p i := by
  have hlen : route.length ≤ (pairRoutes.map List.length).foldl Nat.max 0 :=
    mem_le_foldl_max _ _ _ (List.mem_map_of_mem List.length (mem_of_mem_enum hi))
  have hpos : 0 < route.length := List.length_pos.mpr hroute
  have hmem : startingHopFor asii route ∈
      (if asii then List.range ((pairRoutes.map List.length).foldl Nat.max 0)
       else (List.range ((pairRoutes.map List.length).foldl Nat.max 0)).reverse) := by
    cases asii <;> simp [startingHopFor, List.mem_reverse, List.mem_range] <;> omega
  simp only [routerQuoteMap]
  obtain ⟨s, t, hst⟩ := List.append_of_mem hmem
  rw [hst, List.foldl_append, List.foldl_cons]
  refine foldl_rec (P := fun qm' => filledAt qm' p i) ?_ ?_
  · intro qm' hop _ hq
    exact filledAt_routerHopStep hq env inM outM pools _ asii hop
  · have hs : qmShape pairRoutes.length
        (List.foldl
          (routerHopStep env inM outM pools pairRoutes
            ((generatePercentageAmounts T pInc).1.zip (generatePercentageAmounts T pInc).2)
            asii)
          [] s) := by
      refine foldl_rec (P := fun qm' => qmShape pairRoutes.length qm') ?_ ?_
      · intro qm' hop _ hq
        exact qmShape_routerHopStep hq env inM outM pools _ asii hop
      · intro pr hpr
        cases hpr
    exact routerHopStep_fill hroute hi hpa env inM outM pools hs

theorem mem_zip_of_mem_left {α β : Type _} :
    ∀ {l1 : List α} {l2 : List β} {a : α}, a ∈ l1 → l1.length = l2.length →
      ∃ b, (a, b) ∈ l1.zip l2 := by
  intro l1
  induction l1 with
  | nil =>
    intro l2 a ha _
    simp at ha
  | cons x t ih =>
    intro l2 a ha hlen
    cases l2 with
    | nil => simp at hlen
    | cons y t2 =>
      rw [List.zip_cons_cons]
      rcases List.mem_cons.mp ha with h1 | h1
      · subst h1
        exact ⟨y, List.mem_cons_self _ _⟩
      · obtain ⟨b, hb⟩ := ih h1 (by simpa using hlen)
        exact ⟨b, List.mem_cons_of_mem _ hb⟩

theorem cleanCell_isOk (T : Nat) (asii : Bool) {c : PartialRouteQuote}
    (hlen : c.calculatedHops.length = c.route.length) (hne : c.route ≠ []) :
    ∃ r, cleanCell T asii (some c) = .ok r := by
  simp only [cleanCell]
  split
  · rename_i hguard
    have hall : (c.calculatedHops.filterMap id).length = c.calculatedHops.length :=
      hguard.trans hlen.symm
    have hne2 : c.calculatedHops.filterMap id ≠ [] := by
      intro h0
      rw [h0] at hguard
      exact hne (List.length_eq_zero.mp hguard.symm)
    have hb : (if asii then c.calculatedHops.getLast?.join
               else c.calculatedHops.head?.join).isSome := by
      have h1 := getLast?_join_of_all_some hall
      have h2 := head?_join_of_all_some hall
      cases asii
      · simp only [Bool.false_eq_true, if_false, h2]
        rw [List.head?_isSome]
        exact hne2
      · simp only [if_true, h1]
        rw [List.getLast?_isSome]
        exact hne2
    obtain ⟨bh, hbh⟩ := Option.isSome_iff_exists.mp hb
    rw [hbh]
    exact ⟨_, rfl⟩
  · exact ⟨none, rfl⟩

theorem cleanRow_isOk (T : Nat) (asii : Bool) :
    ∀ {row : List (Option PartialRouteQuote)},
      (∀ cell ∈ row, ∃ c, cell = some c ∧
        c.calculatedHops.length = c.route.length ∧ c.route ≠ []) →
      ∃ l, cleanRow T asii row = .ok l := by
  intro row
  induction row with
  | nil =>
    intro _
    exact ⟨[], rfl⟩
  | cons cell rest ih =>
    intro h
    obtain ⟨c, hc, hl1, hl2⟩ := h cell (List.mem_cons_self _ _)
    obtain ⟨l, hl⟩ := ih fun x hx => h x (List.mem_cons_of_mem _ hx)
    obtain ⟨r, hr⟩ := cleanCell_isOk T asii hl1 hl2
    subst hc
    simp only [cleanRow]
    rw [hr]
    cases r with
    | none => exact ⟨l, hl⟩
    | some rq =>
      rw [hl]
      exact ⟨rq :: l, rfl⟩

theorem cleanQuoteMap_isOk (T : Nat) (asii : Bool) :
    ∀ {qm : QuoteMap},
      (∀ pr ∈ qm, ∀ cell ∈ pr.2, ∃ c, cell = some c ∧
        c.calculatedHops.length = c.route.length ∧ c.route ≠ []) →
      ∃ l, cleanQuoteMap T asii qm = .ok l := by
  intro qm
  induction qm with
  | nil =>
    intro _
    exact ⟨[], rfl⟩
  | cons pr0 rest ih =>
    obtain ⟨p, row⟩ := pr0
    intro h
    obtain ⟨crow, hcrow⟩ :=
      cleanRow_isOk T asii fun cell hc => h (p, row) (List.mem_cons_self _ _) cell hc
    obtain ⟨crest, hcrest⟩ := ih fun pr hpr => h pr (List.mem_cons_of_mem _ hpr)
    simp only [cleanQuoteMap]
    rw [hcrow, hcrest]
    exact ⟨(p, crow) :: crest, rfl⟩

theorem routerQuoteMap_noHoles (env : RouterEnv) (inM outM : String) (T : Nat) (asii : Bool)
    {pairRoutes : List (List String)} (pools : String → Option TokenPairPool) (pInc : Nat)
    (hroutes : ∀ route ∈ pairRoutes, route ≠ []) :
    ∀ pr ∈ routerQuoteMap env inM outM T asii pairRoutes pools pInc,
      ∀ cell ∈ pr.2, ∃ c, cell = some c ∧
        c.calculatedHops.length = c.route.length ∧ c.route ≠ [] := by
  obtain ⟨hshape, hok, hroutesInv, hcoh, hkeys⟩ :=
    routerQuoteMap_qmInv env inM outM T asii pairRoutes pools pInc
  intro pr hpr cell hcell
  obtain ⟨j, hj, hjc⟩ := List.mem_iff_getElem.mp hcell
  have hp : pr.1 ∈ (generatePercentageAmounts T pInc).1 := hkeys pr hpr
  have hlens : (generatePercentageAmounts T pInc).1.length =
      (generatePercentageAmounts T pInc).2.length := by
    simp [generatePercentageAmounts]
  obtain ⟨amt, hamt⟩ := mem_zip_of_mem_left hp hlens
  have hjlen : j < pairRoutes.length := by
    have := hshape pr hpr
    omega
  have hjlen2 : j < pairRoutes.enum.length := by
    rw [List.enum_length]
    exact hjlen
  have hriEnum : (j, pairRoutes.get ⟨j, hjlen⟩) ∈ pairRoutes.enum := by
    have hg : pairRoutes.enum.get ⟨j, hjlen2⟩ = (j, pairRoutes.get ⟨j, hjlen⟩) :=
      List.getElem_enum _ _ _
    rw [← hg]
    exact List.getElem_mem hjlen2
  have hfill := routerQuoteMap_filled env inM outM T asii pools pInc
    (hroutes _ (List.getElem_mem hjlen)) hriEnum hamt
  unfold filledAt getCell at hfill
  rw [hcoh pr hpr] at hfill
  simp only [Option.getD_some] at hfill
  have hcd : pr.2.getD j none = cell := by
    rw [List.getD_eq_getElem?_getD, List.getElem?_eq_getElem hj, Option.getD_some]
    exact hjc
  rw [hcd] at hfill
  obtain ⟨c, hc⟩ := Option.isSome_iff_exists.mp hfill
  refine ⟨c, hc, ?_, ?_⟩
  · exact (hok pr hpr c (hc ▸ hcell)).1
  · exact hroutes _ (hroutesInv pr hpr c (hc ▸ hcell))

/-! ### Agreement of the full router with its projection -/

theorem foldl_exceptStep_ok {α β : Type _} {fF : β → α → Except RouterError β}
    {f : β → α → β} :
    ∀ {l : List α} {b : β}, (∀ b' a, a ∈ l → fF b' a = .ok (f b' a)) →
      l.foldl (exceptStep fF) (.ok b) = .ok (l.foldl f b) := by
  intro l
  induction l with
  | nil =>
    intro b _
    rfl
  | cons a t ih =>
    intro b h
    rw [List.foldl_cons, List.foldl_cons,
      show exceptStep fF (.ok b) a = fF b a from rfl, h b a (List.mem_cons_self a t)]
    exact ih fun b' x hx => h b' x (List.mem_cons_of_mem a hx)

theorem buildCellStepF_ok (inM outM : String) {pools : String → Option TokenPairPool}
    {route : List String} (hcov : ∀ a ∈ route, (pools a).isSome)
    (percent tradeAmount hop : Nat) (asii : Bool) (i : Nat)
    (acc : QuoteMap × List QuoteUpdate) :
    buildCellStepF inM outM pools percent tradeAmount hop asii i route acc =
      .ok (buildCellStep inM outM pools percent tradeAmount hop asii i route acc) := by
  by_cases hskip : if asii then route.length ≤ hop
    else (hop : Int) > (route.length : Int) - 1
  · simp only [buildCellStepF, buildCellStep, if_pos hskip]
  · have hlen : hop < route.length := by
      by_cases ha : asii = true
      · rw [if_pos ha] at hskip
        omega
      · rw [if_neg ha] at hskip
        omega
    cases route with
    | nil => exact absurd hlen (by simp)
    | cons a0 rest =>
      obtain ⟨ip, hip⟩ := Option.isSome_iff_exists.mp (hcov a0 (List.mem_cons_self _ _))
      have hhead : (a0 :: rest).head?.bind pools = some ip := by
        rw [List.head?_cons, Option.some_bind, hip]
      have hget : ∀ (l : List String), hop < l.length → l.getD hop "" ∈ l := by
        intro l hl
        rw [List.getD_eq_getElem?_getD, List.getElem?_eq_getElem hl, Option.getD_some]
        exact List.getElem_mem hl
      have hmemO : (if ip.tokenMintA ≠ inM ∧ ip.tokenMintB ≠ inM then (a0 :: rest).reverse
          else a0 :: rest).getD hop "" ∈ a0 :: rest := by
        split
        · exact List.mem_reverse.mp (hget _ (by simpa using hlen))
        · exact hget _ hlen
      obtain ⟨pl, hpl⟩ := Option.isSome_iff_exists.mp (hcov _ hmemO)
      simp only [buildCellStepF, buildCellStep, if_neg hskip, hhead, Option.getD_some, hpl]
      split_ifs <;> rfl

theorem buildQuoteUpdateRequestsF_ok {pools : String → Option TokenPairPool}
    {pairRoutes : List (List String)}
    (hcov : ∀ route ∈ pairRoutes, ∀ a ∈ route, (pools a).isSome)
    (inM outM : String) (pa : List (Nat × Nat)) (hop : Nat) (asii : Bool)
    (qm : QuoteMap) :
    buildQuoteUpdateRequestsF inM outM pools pairRoutes pa hop asii qm =
      .ok (buildQuoteUpdateRequests inM outM pools pairRoutes pa hop asii qm) := by
  unfold buildQuoteUpdateRequestsF buildQuoteUpdateRequests
  refine foldl_exceptStep_ok ?_
  intro acc pa0 _
  refine foldl_exceptStep_ok ?_
  intro acc2 ir hir
  exact buildCellStepF_ok inM outM (hcov ir.2 (mem_of_mem_enum hir)) pa0.1 pa0.2 hop asii
    ir.1 acc2

theorem routerHopStepF_ok {pools : String → Option TokenPairPool}
    {pairRoutes : List (List String)}
    (hcov : ∀ route ∈ pairRoutes, ∀ a ∈ route, (pools a).isSome)
    (env : RouterEnv) (inM outM : String) (pa : List (Nat × Nat)) (asii : Bool)
    (qm : QuoteMap) (hop : Nat) :
    routerHopStepF env inM outM pools pairRoutes pa asii qm hop =
      .ok (routerHopStep env inM outM pools pairRoutes pa asii qm hop) := by
  unfold routerHopStepF routerHopStep
  rw [buildQuoteUpdateRequestsF_ok hcov]

theorem routerQuoteMapF_ok {pools : String → Option TokenPairPool}
    {pairRoutes : List (List String)}
    (hcov : ∀ route ∈ pairRoutes, ∀ a ∈ route, (pools a).isSome)
    (env : RouterEnv) (inM outM : String) (T : Nat) (asii : Bool) (pInc : Nat) :
    routerQuoteMapF env inM outM T asii pairRoutes pools pInc =
      .ok (routerQuoteMap env inM outM T asii pairRoutes pools pInc) := by
  simp only [routerQuoteMapF, routerQuoteMap]
  refine foldl_exceptStep_ok ?_
  intro qm hop _
  exact routerHopStepF_ok hcov env inM outM _ asii qm hop

theorem findBestRoutesF_eq (env : RouterEnv) (inM outM : String) (T : Nat) (asii : Bool)
    (walks : List ((String × String) × List (List String)))
    (pools : String → Option TokenPairPool) (opts : RoutingOptions)
    (hcov : ∀ pairRoutes, walks.lookup (getRouteId inM outM) = some pairRoutes →
      ∀ route ∈ pairRoutes, ∀ a ∈ route, (pools a).isSome) :
    findBestRoutesF env inM outM T asii walks pools opts =
      findBestRoutesE env inM outM T asii walks pools opts := by
  cases hlk : walks.lookup (getRouteId inM outM) with
  | none =>
    unfold findBestRoutesF findBestRoutesE
    rw [hlk]
  | some pairRoutes =>
    unfold findBestRoutesF findBestRoutesE
    simp only [hlk]
    by_cases hT : T = 0
    · simp [hT]
    · rw [if_neg hT, if_neg hT]
      by_cases hne : pairRoutes.isEmpty = true
      · rw [if_pos hne, if_pos hne]
      · rw [if_neg hne, if_neg hne, routerQuoteMapF_ok (hcov pairRoutes hlk) env inM outM]

/-- C2 (corrected): quote failures never raise.  In the full model — the
missing-pool `TypeError` included — `findBestRoutes` returns an `.ok`
result for EVERY quoting environment, in particular for environments where
any subset of the per-hop swap quotes fails (the `catch { continue }`
path), whenever the walks entry for the token pair is structurally valid (a
nonempty list of nonempty routes) and the pool map covers every pool of
every route.  So no error it can raise is caused by a failed hop quote: a
failed hop quote merely leaves its `(percent, route)` cell incomplete,
which `cleanQuoteMap` drops (`.ok none`) rather than propagating. -/
theorem c2_quote_failure_policy (env : RouterEnv) (inM outM : String) (T : Nat)
    (asii : Bool) (walks : List ((String × String) × List (List String)))
    (pools : String → Option TokenPairPool) (opts : RoutingOptions)
    (hroutes : ∀ pairRoutes, walks.lookup (getRouteId inM outM) = some pairRoutes →
      pairRoutes ≠ [] ∧
        ∀ route ∈ pairRoutes, route ≠ [] ∧ ∀ a ∈ route, (pools a).isSome) :
    ∃ l, findBestRoutesF env inM outM T asii walks pools opts = .ok l := by
  rw [findBestRoutesF_eq env inM outM T asii walks pools opts
    (fun pairRoutes hpr route hr => ((hroutes pairRoutes hpr).2 route hr).2)]
  cases hlk : walks.lookup (getRouteId inM outM) with
  | none =>
    refine ⟨[], ?_⟩
    unfold findBestRoutesE
    rw [hlk]
  | some pairRoutes =>
    obtain ⟨hne, hall⟩ := hroutes pairRoutes hlk
    have hneb : pairRoutes.isEmpty = false := by
      simp [List.isEmpty_iff, hne]
    by_cases hT : T = 0
    · refine ⟨[], ?_⟩
      unfold findBestRoutesE
      rw [hlk]
      simp [hT]
    · obtain ⟨cq, hcq⟩ := cleanQuoteMap_isOk T asii
        (routerQuoteMap_noHoles env inM outM T asii pools opts.percentIncrement
          (fun route hr => (hall route hr).1))
      refine ⟨(env.getRankedRouteSets (pruneQuoteMap cq opts.numTopPartialQuotes asii) asii
          opts.numTopRoutes opts.maxSplits ++ getSingleHopSplit cq).mergeSort
          (routeSetLe asii), ?_⟩
      unfold findBestRoutesE
      rw [hlk]
      simp only [if_neg hT, hneb, Bool.false_eq_true, if_false, hcq]

/-! ## Witnesses -/

theorem c1_amended_witness :
    cleanQuoteMap 10 true (routerQuoteMap cexEnv "A" "B" 10 true [["P"]] cexPools 50) =
      .ok cexCleaned ∧
    ∀ pr ∈ cexCleaned, ∀ rq ∈ pr.2,
      (true = true → rq.amountIn = 10 ∧
        rq.calculatedHops.getLast?.map (·.amountOut) = some rq.amountOut) ∧
      (true = false → rq.amountOut = 10 ∧
        rq.calculatedHops.head?.map (·.amountIn) = some rq.amountIn) :=
  ⟨by rfl, c1_amended cexEnv "A" "B" 10 true [["P"]] cexPools 50 cexCleaned (by rfl)⟩

theorem c2_quote_failure_policy_witness :
    ∃ l, findBestRoutesF cexEnvFailing "A" "B" 10 true cexWalks cexPools
      DEFAULT_ROUTING_OPTIONS = .ok l :=
  c2_quote_failure_policy cexEnvFailing "A" "B" 10 true cexWalks cexPools
    DEFAULT_ROUTING_OPTIONS (by
      intro pairRoutes hpr
      rw [show cexWalks.lookup (getRouteId "A" "B") = some [["P"]] from rfl] at hpr
      injection hpr with h3
      subst h3
      exact ⟨by decide, by decide⟩)

theorem c4_slippage_envelope_witness :
    c4prms.liquidity ≠ 0 ∧
    increaseLiquidityQuoteByLiquidityWithParams toyLiqEnv c4prms = some c4q ∧
    c4q.tokenEstA ≤ c4q.tokenMaxA ∧ c4q.tokenEstB ≤ c4q.tokenMaxB :=
  ⟨by decide, by rfl,
   (c4_slippage_envelope toyLiqEnv c4prms c4q (by decide) (by rfl)).2.2⟩

theorem c5_zero_quote_witness :
    checkTickInBounds c5param.tickLowerIndex = true ∧
    checkTickInBounds c5param.tickUpperIndex = true ∧
    (c5param.inputTokenMint = c5param.tokenMintA ∨
      c5param.inputTokenMint = c5param.tokenMintB) ∧
    ((c5param.inputTokenAmount = 0 →
      increaseLiquidityQuoteByInputTokenWithParams_PriceSlippage toyLiqEnv c5param =
        some zeroLiquidityQuote) ∧
     (getLiquidityFromInputToken toyLiqEnv c5param = some 0 →
      increaseLiquidityQuoteByInputTokenWithParams_PriceSlippage toyLiqEnv c5param =
        some zeroLiquidityQuote) ∧
     (c5lp.liquidity = 0 →
      increaseLiquidityQuoteByLiquidityWithParams toyLiqEnv c5lp =
        some zeroLiquidityQuote)) :=
  ⟨by decide, by decide, Or.inl rfl,
   c5_zero_quote toyLiqEnv c5param c5lp (by decide) (by decide) (Or.inl rfl)⟩

theorem c6_generatePercentageAmounts_witness :
    0 < 20 ∧
    ((generatePercentageAmounts 10 20).1.length = 100 / 20 ∧
     (generatePercentageAmounts 10 20).2.length = 100 / 20 ∧
     ∀ i < 100 / 20,
       (generatePercentageAmounts 10 20).1.getD i 0 = (i + 1) * 20 ∧
       (generatePercentageAmounts 10 20).2.getD i 0 = 10 * ((i + 1) * 20) / 100) :=
  ⟨by decide, c6_generatePercentageAmounts 10 20 (by decide)⟩

theorem c7_legacy_zero_witness :
    c7param.tokenMintA ≠ c7param.tokenMintB ∧
    increaseLiquidityQuoteByInputTokenWithParams toyLiqEnv c7param = some c7q ∧
    ((getStrictPositionStatus toyLiqEnv c7param.sqrtPrice c7param.tickLowerIndex
        c7param.tickUpperIndex = .BelowRange ∧
      c7param.inputTokenMint = c7param.tokenMintB) ∨
     (getStrictPositionStatus toyLiqEnv c7param.sqrtPrice c7param.tickLowerIndex
        c7param.tickUpperIndex = .AboveRange ∧
      c7param.inputTokenMint = c7param.tokenMintA)) ∧
    (c7q.liquidityAmount = 0 ∧ c7q.tokenEstA = 0 ∧ c7q.tokenEstB = 0) :=
  ⟨by decide, by rfl, Or.inl ⟨by decide, rfl⟩,
   c7_legacy_zero toyLiqEnv c7param c7q (by decide) (by rfl) (Or.inl ⟨by decide, rfl⟩)⟩

theorem c8_single_hop_baseline_witness :
    cexWalks.lookup (getRouteId "A" "B") = some [["P"]] ∧
    ¬ (10 : Nat) = 0 ∧
    ([["P"]] : List (List String)).isEmpty = false ∧
    cleanQuoteMap 10 true
      (routerQuoteMap cexEnv "A" "B" 10 true [["P"]] cexPools cexOpts.percentIncrement) =
        .ok cexCleaned ∧
    findBestRoutesE cexEnv "A" "B" 10 true cexWalks cexPools cexOpts = .ok cexResult ∧
    ((∀ rq ∈ (cexCleaned.lookup 100).getD [], ∀ h : CalculatedHop,
        rq.calculatedHops = [h] →
        ({ quotes := [rq], percent := 100, totalIn := h.amountIn,
           totalOut := h.amountOut } : SplitResult) ∈ cexResult) ∧
     List.Sorted (fun a b => routeSetLe true a b = true) cexResult) :=
  ⟨by rfl, by decide, by rfl, by rfl, by rfl,
   c8_single_hop_baseline cexEnv "A" "B" 10 true cexWalks cexPools cexOpts [["P"]]
     cexResult cexCleaned (by rfl) (by decide) (by rfl) (by rfl) (by rfl)⟩

theorem c9_early_return_witness :
    (cexWalks.lookup (getRouteId "A" "Z") = none ∨ (10 : Nat) = 0) ∧
    findBestRoutesE cexEnv "A" "Z" 10 true cexWalks cexPools DEFAULT_ROUTING_OPTIONS =
      .ok [] :=
  ⟨Or.inl (by decide),
   c9_early_return cexEnv "A" "Z" 10 true cexWalks cexPools DEFAULT_ROUTING_OPTIONS
     (Or.inl (by decide))⟩

theorem c10_zero_slippage_witness :
    cexEnv.poolData = cexEnvZeroOnly.poolData ∧
    cexEnv.getRankedRouteSets = cexEnvZeroOnly.getRankedRouteSets ∧
    findBestRoutesE cexEnv "A" "B" 10 true cexWalks cexPools DEFAULT_ROUTING_OPTIONS =
      findBestRoutesE cexEnvZeroOnly "A" "B" 10 true cexWalks cexPools
        DEFAULT_ROUTING_OPTIONS ∧
    otherAmountThreshold_spec (Percentage.fromFraction 0 1000) 7 9 true =
      (if true then 9 else 7) :=
  ⟨rfl, rfl,
   c10_zero_slippage.1 cexEnv cexEnvZeroOnly "A" "B" 10 true cexWalks cexPools
     DEFAULT_ROUTING_OPTIONS rfl rfl (fun _ => rfl),
   c10_zero_slippage.2.2 7 9 true⟩

/-- C2 counterexample: with a quoter that never fails (it answers every
request), `findBestRoutes` still raises — the `Array(Math.max())`
`RangeError` when the walks entry for the pair is an empty list of routes,
and the `TypeError` from `pools[route[0]]` being `undefined` when the pool
map lacks the route's pool — in both cases with no quoting error having
occurred (no quote was even requested).  So the code's raising condition is
not "the result set is empty and at least one arithmetic/overflow error
occurred during quoting". -/
theorem c2_counterexample :
    findBestRoutesF cexEnv "A" "B" 10 true [(("A", "B"), [])] cexPools
      DEFAULT_ROUTING_OPTIONS = .error .invalidArrayLength ∧
    findBestRoutesF cexEnv "A" "B" 10 true cexWalks (fun _ => none)
      DEFAULT_ROUTING_OPTIONS = .error .typeError ∧
    ∀ p s, ∃ q, cexEnv.swapQuoteWithParams p s = .ok q :=
  ⟨rfl, rfl, fun _ _ => ⟨_, rfl⟩⟩
